import Mathlib

/-!
# my-ip-visualised-go: the event loop and the map projection of `main.go`

A shallow embedding of `src/main.go`.

* Go `float64` values that can reach the program are finite (they are decoded
  from JSON); a finite binary64 is the rational it denotes, and each of
  `+ - * /` is the exact operation followed by `roundF64`, rounding to the
  nearest binary64, ties to even (53-bit significand, least exponent -1022,
  subnormals). No operation of the program exceeds the largest binary64 on
  finite inputs (`quotX_finite`, `quotY_finite`), so infinities do not arise.
* Go `int` is the 64-bit two's-complement integer of a 64-bit target: results
  of `++` are wrapped with `wrapInt`, `%` is the truncated remainder, and a
  conversion `int(f)` truncates toward zero when the result is representable.
  The Go specification leaves the result of an unrepresentable conversion to
  the implementation, so that result is a parameter (`ovf`) of every
  definition that converts.
* A run-time panic (index out of range) is the value `none`.
* The lipgloss renderers and the `%f` verb of `fmt` belong to libraries
  outside the repository; they are the fields of `Styles`.
-/

namespace IPVis

/-! ## Machine integers and conversions -/

/-- Smallest value of a Go `int` on a 64-bit target. -/
def minInt : Int := -(2 ^ 63)

/-- Largest value of a Go `int` on a 64-bit target. -/
def maxInt : Int := 2 ^ 63 - 1

/-- Two's-complement wrap of an exact integer into the range of `int`. -/
def wrapInt (z : Int) : Int := (z + 2 ^ 63) % 2 ^ 64 - 2 ^ 63

/-- Go's `%` on `int`: the remainder has the sign of the dividend. -/
def goMod (a b : Int) : Int := Int.tmod a b

/-- Truncation of a rational toward zero. -/
def truncQ (q : ℚ) : Int := if 0 ≤ q then ⌊q⌋ else ⌈q⌉

/-- The truncated value is representable as an `int`. -/
def FitsInt (q : ℚ) : Prop := minInt ≤ truncQ q ∧ truncQ q ≤ maxInt

instance (q : ℚ) : Decidable (FitsInt q) := by
  unfold FitsInt; infer_instance

/-- Go's conversion `int(f)` of a finite `float64`: truncation toward zero when
the result is representable, otherwise the implementation's choice `ovf f`. -/
def floatToInt (ovf : ℚ → Int) (f : ℚ) : Int :=
  if FitsInt f then truncQ f else ovf f

/-- The conversion of x86-64 (`CVTTSD2SQ`): every unrepresentable value becomes
the "integer indefinite" value `-2^63`. -/
def ovfAmd64 : ℚ → Int := fun _ => minInt

/-! ## Binary64 arithmetic -/

/-- Rounding of a rational to the nearest integer, ties to the even one. -/
def roundHalfEven (q : ℚ) : Int :=
  let f := ⌊q⌋
  if q - f < 1 / 2 then f
  else if 1 / 2 < q - f then f + 1
  else if f % 2 = 0 then f else f + 1

/-- The binary exponent of a positive value as a binary64 holds it: the
exponent of its binade, and -1022 for the least normal binade and the
subnormals. -/
def f64Exponent (x : ℚ) : Int := max (Int.log 2 x) (-1022)

/-- The unit in the last place of the 53-bit significand at `x`. -/
def f64Ulp (x : ℚ) : ℚ := (2 : ℚ) ^ (f64Exponent x - 52)

/-- Rounding of a non-negative value to the nearest multiple of its unit in
the last place, ties to even. -/
def roundMag (x : ℚ) : ℚ := roundHalfEven (x / f64Ulp x) * f64Ulp x

/-- Rounding to the nearest binary64, ties to even; it is symmetric in the
sign. -/
def roundF64 (x : ℚ) : ℚ := if 0 ≤ x then roundMag x else -roundMag (-x)

/-- The largest finite binary64. -/
def f64Max : ℚ := (2 ^ 53 - 1) * 2 ^ 971

/-- Go's `+` on `float64`. -/
def fadd (a b : ℚ) : ℚ := roundF64 (a + b)

/-- Go's `-` on `float64`. -/
def fsub (a b : ℚ) : ℚ := roundF64 (a - b)

/-- Go's `*` on `float64`. -/
def fmul (a b : ℚ) : ℚ := roundF64 (a * b)

/-- Go's `/` on `float64`. -/
def fdiv (a b : ℚ) : ℚ := roundF64 (a / b)

/-! ## The map template -/

/-- The variable `asciiWorldMap` (main.go:177-195), escapes resolved. -/
def asciiWorldMap : List String := [
  "           . _..::__:  ,-'-'.+       |]       ,     _,.__             ",
  "   _.___ _ _<_>`!(._`.`-.    /        _._     `_ ,_/  '  '-._.---.-.__",
  " .\x7b     ' ' `-==,',._\\\x7b  \\  / \x7b) _   / _ '>_,-' `                _-/_ ",
  " \\_.:--.       `._ )`^-. ''      , [_/(                       __,/-'  ",
  "''     \\         '    _L       oD_,--'                )     /. (|    ",
  "         |           ,'         _)_.\\\\._<> 6              _,' /  '    ",
  "         `.         /          [_/_'` `'(                <'\x7d  )       ",
  "          \\\\    .-. )          /   `-''..' `:._          _)  '        ",
  "   `        \\  (  `(          /         `:\\  > \\  ,-^.  /' '          ",
  "             `._,   ''        |           \\`'   \\|   ?_)  \x7b\\          ",
  "                `=.---.       `._._       ,'     '`  |' ,- '.         ",
  "                  |    `-._        |     /          `:`<_|h--._       ",
  "                  (        >       .     | ,          `=.__.`-'\\      ",
  "                   `.     /        |     |\x7b|              ,-.,\\     . ",
  "                    |   ,'          \\   / `'            ,'     \\     ",
  "                    |  /             |_'                |  __  /      ",
  "                    | |                                 |  L.\\'       "
]

/-- The three kinds of grid cell: each is the glyph "•" rendered by
`waterStyle`, `landStyle` or `markerStyle`. -/
inductive Cell
  | water
  | land
  | marker
  deriving DecidableEq, Repr

/-- The classification of one template character (main.go:211-215). -/
def classify (char : Char) : Cell :=
  if char = ' ' then Cell.water else Cell.land

/-- The local `width` of `renderMap` (main.go:198). -/
def width : Nat := 64

/-- The local `height` of `renderMap` (main.go:199). -/
def height : Nat := 17

/-- One iteration of the outer loop of main.go:208-222: classify every
character of the line, then append water cells while the row is shorter than
`width`. -/
def buildRow (line : String) : List Cell :=
  let row := line.toList.map classify
  row ++ List.replicate (width - row.length) Cell.water

/-- The grid after the loop of main.go:207-222. -/
def buildGrid : List (List Cell) :=
  asciiWorldMap.map buildRow

/-! ## The projection and the marker (main.go:228-245) -/

/-- The `float64` expression `(lon + 180) / 360 * float64(width)` of
main.go:228. -/
def quotX (lon : ℚ) : ℚ := fmul (fdiv (fadd lon 180) 360) (width : ℚ)

/-- The `float64` expression `(90 - lat) / 180 * float64(height)` of
main.go:229. -/
def quotY (lat : ℚ) : ℚ := fmul (fdiv (fsub 90 lat) 180) (height : ℚ)

/-- The value of `x` after the clamp tests of main.go:232-233. -/
def markerX (ovf : ℚ → Int) (lon : ℚ) : Int :=
  let x := floatToInt ovf (quotX lon)
  let x := if x < 0 then 0 else x
  let x := if x ≥ (width : Int) then (width : Int) - 1 else x
  x

/-- The value of `y` after the clamp tests of main.go:234-235, for a grid of
`lenGrid` rows. -/
def clampY (lenGrid : Int) (ovf : ℚ → Int) (lat : ℚ) : Int :=
  let y := floatToInt ovf (quotY lat)
  let y := if y < 0 then 0 else y
  let y := if y ≥ lenGrid then lenGrid - 1 else y
  y

/-- The marker row computed by `renderMap`: `len(grid)` is the length of the
grid just built. -/
def markerY (ovf : ℚ → Int) (lat : ℚ) : Int :=
  clampY (buildGrid.length : Int) ovf lat

/-- The guarded write of main.go:240-245. Indexing with a negative index
panics (`none`). -/
def placeMarker (grid : List (List Cell)) (x y : Int) : Option (List (List Cell)) :=
  if y < (grid.length : Int) then
    if y < 0 then none
    else
      match grid[y.toNat]? with
      | none => none
      | some row =>
        if x < (row.length : Int) then
          if x < 0 then none
          else some (grid.set y.toNat (row.set x.toNat Cell.marker))
        else some grid
  else some grid

/-- The grid of `renderMap` just before it is turned into text
(main.go:206-245). -/
def renderGrid (ovf : ℚ → Int) (lat lon : ℚ) : Option (List (List Cell)) :=
  placeMarker buildGrid (markerX ovf lon) (markerY ovf lat)

/-- The renderers the program takes from lipgloss and the `%f` verb of `fmt`. -/
structure Styles where
  titleStyle : String → String
  infoStyle : String → String
  labelStyle : String → String
  waterStyle : String → String
  landStyle : String → String
  markerStyle : String → String
  mapBorder : String → String
  joinHorizontalTop : String → String → String
  fmtF : ℚ → String

/-- The text of one cell. -/
def Cell.glyph (sty : Styles) : Cell → String
  | Cell.water => sty.waterStyle "•"
  | Cell.land => sty.landStyle "•"
  | Cell.marker => sty.markerStyle "•"

/-- The loop of main.go:248-254. -/
def gridText (sty : Styles) (grid : List (List Cell)) : String :=
  grid.foldl (fun s row => (row.foldl (fun s char => s ++ char.glyph sty) s) ++ "\n") ""

/-- The function `renderMap` (main.go:197-261). -/
def renderMap (sty : Styles) (ovf : ℚ → Int) (lat lon : ℚ) : Option String :=
  (renderGrid ovf lat lon).map (fun grid => sty.mapBorder (gridText sty grid))

/-! ## The model and its messages -/

/-- The struct `IPInfo` (main.go:33-48). -/
structure IPInfo where
  Query : String
  Status : String
  Country : String
  CountryCode : String
  Region : String
  RegionName : String
  City : String
  Zip : String
  Lat : ℚ
  Lon : ℚ
  Timezone : String
  Isp : String
  Org : String
  As : String
  deriving DecidableEq

/-- A non-nil Go `error`; `text` is what its `Error()` method returns. -/
structure GoError where
  text : String
  deriving DecidableEq

/-- The struct `model` (main.go:50-56). A nil pointer or nil error is `none`. -/
structure model where
  ipInfo : Option IPInfo
  err : Option GoError
  loading : Bool
  spinner : Int
  quitting : Bool
  deriving DecidableEq

/-- The messages `Update` can receive. `KeyMsg s` is a key whose `String()` is
`s`; `ipMsg` carries a pointer, which may be nil; `otherMsg` is any message of
a type the switch does not name. -/
inductive Msg
  | KeyMsg (s : String)
  | ipMsg (p : Option IPInfo)
  | errMsg (e : GoError)
  | TickMsg
  | otherMsg
  deriving DecidableEq

/-- The commands `Update` returns: `nil`, `tea.Quit`, `tick()`. -/
inductive Cmd
  | nil
  | Quit
  | tick
  deriving DecidableEq

/-- The outcome of the HTTP exchange of `getIPInfo`. -/
inductive Lookup
  | transportError (e : GoError)
  | decodeError (e : GoError)
  | decoded (info : IPInfo)

/-- The function `getIPInfo` (main.go:67-81) as a function of the exchange. -/
def getIPInfo : Lookup → Msg
  | Lookup.transportError e => Msg.errMsg e
  | Lookup.decodeError e => Msg.errMsg e
  | Lookup.decoded info => Msg.ipMsg (some info)

/-- A lookup-success or lookup-failure message. -/
def Msg.isOutcome : Msg → Bool
  | Msg.ipMsg _ => true
  | Msg.errMsg _ => true
  | _ => false

/-- The function `initialModel` (main.go:61-65). -/
def initialModel : model :=
  { ipInfo := none, err := none, loading := true, spinner := 0, quitting := false }

/-- The method `Update` (main.go:96-122). -/
def Update (m : model) : Msg → model × Cmd
  | Msg.KeyMsg s =>
    if s = "q" ∨ s = "ctrl+c" then ({ m with quitting := true }, Cmd.Quit)
    else (m, Cmd.nil)
  | Msg.ipMsg p => ({ m with ipInfo := p, loading := false }, Cmd.nil)
  | Msg.errMsg e => ({ m with err := some e, loading := false }, Cmd.nil)
  | Msg.TickMsg =>
    if m.loading then ({ m with spinner := wrapInt (m.spinner + 1) }, Cmd.tick)
    else (m, Cmd.nil)
  | Msg.otherMsg => (m, Cmd.nil)

/-- The slice `spinnerChars` (main.go:130). -/
def spinnerChars : List String := ["⣾", "⣽", "⣻", "⢿", "⡿", "⣟", "⣯", "⣷"]

/-- The index expression `m.spinner % len(spinnerChars)` (main.go:131). -/
def spinnerIndex (m : model) : Int := goMod m.spinner (spinnerChars.length : Int)

/-- Indexing a slice with an `int`: a negative or too large index panics. -/
def sliceAt (xs : List String) (i : Int) : Option String :=
  if 0 ≤ i then xs[i.toNat]? else none

/-- The text of the info panel (main.go:141-160). -/
def infoContent (sty : Styles) (info : IPInfo) : String :=
  "\n" ++ sty.titleStyle " IP VISUALIZER " ++ "\n\n"
    ++ sty.labelStyle "IP Address:" ++ " " ++ info.Query ++ "\n"
    ++ sty.labelStyle "ISP:       " ++ " " ++ info.Isp ++ "\n"
    ++ sty.labelStyle "Location:  " ++ " " ++ info.City ++ ", " ++ info.Country ++ "\n"
    ++ sty.labelStyle "Region:    " ++ " " ++ info.RegionName ++ "\n"
    ++ sty.labelStyle "Timezone:  " ++ " " ++ info.Timezone ++ "\n"
    ++ sty.labelStyle "AS:        " ++ " " ++ info.As ++ "\n"
    ++ sty.labelStyle "Coords:    " ++ " " ++ sty.fmtF info.Lat ++ ", " ++ sty.fmtF info.Lon
    ++ "\n"

/-- The method `View` (main.go:124-174). -/
def View (sty : Styles) (ovf : ℚ → Int) (m : model) : Option String :=
  match m.err with
  | some e => some ("\nError: " ++ e.text ++ "\n\nPress q to quit.")
  | none =>
    if m.loading then
      (sliceAt spinnerChars (spinnerIndex m)).map
        (fun spin => "\n " ++ spin ++ " Scanning network for IP details...\n\nPress q to quit.")
    else
      match m.ipInfo with
      | some info =>
        (renderMap sty ovf info.Lat info.Lon).map (fun mapView =>
          sty.joinHorizontalTop (sty.infoStyle (infoContent sty info)) mapView
            ++ "\n\nPress q to quit.")
      | none => some ""

/-- The state after delivering the messages of `msgs`, in order, to `Update`. -/
def run (m : model) (msgs : List Msg) : model :=
  msgs.foldl (fun m msg => (Update m msg).1) m

/-- The state after `n` ticks. -/
def ticks (m : model) : Nat → model
  | 0 => m
  | n + 1 => (Update (ticks m n) Msg.TickMsg).1

/-- At least one branch of `View` other than the last applies. -/
def Displayable (m : model) : Prop :=
  m.err ≠ none ∨ m.loading = true ∨ m.ipInfo ≠ none

instance (m : model) : Decidable (Displayable m) := by
  unfold Displayable; infer_instance

/-! ## The reference projection of the specification -/

/-- The column of the specification, in exact arithmetic:
`floor((lon + 180) / 360 * width)` clamped to `[0, width - 1]`. -/
def specColumn (lon : ℚ) : Int :=
  max 0 (min ((width : Int) - 1) ⌊(lon + 180) / 360 * (width : ℚ)⌋)

/-- The row of the specification, in exact arithmetic:
`floor((90 - lat) / 180 * height)` clamped to `[0, height - 1]`. -/
def specRow (lat : ℚ) : Int :=
  max 0 (min ((height : Int) - 1) ⌊(90 - lat) / 180 * (height : ℚ)⌋)

/-- Floor then clamp to `[0, width - 1]` of the quotient as `float64`
arithmetic computes it. -/
def floorColumn (lon : ℚ) : Int :=
  max 0 (min ((width : Int) - 1) ⌊quotX lon⌋)

/-- Floor then clamp to `[0, height - 1]` of the quotient as `float64`
arithmetic computes it. -/
def floorRow (lat : ℚ) : Int :=
  max 0 (min ((height : Int) - 1) ⌊quotY lat⌋)

/-- The binary64 nearest to -0.12. -/
def lonMinus012 : ℚ := -1080863910568919 / 9007199254740992

/-- The binary64 next below -5.625, printed -5.625000000000001. -/
def lonBelow5625 : ℚ := -(45 / 8 + 1 / 2 ^ 50)

/-- The binary64 printed -61.87500000000001: the sum `lon + 180` lies halfway
between two binary64 values. -/
def lonTie : ℚ := -(495 / 8 + 1 / 2 ^ 47)

/-- The binary64 printed 47.64705882352941. -/
def lat4764 : ℚ := 6705727386342099 / 140737488355328

/-- The binary64 `-97659233331403505664`: the exact quotient is below `2^63`,
the `float64` quotient is `2^63`. -/
def latBand : ℚ := -97659233331403505664

/-- The cell at row `r`, column `c` of a grid, if there is one. -/
def cellAt (grid : List (List Cell)) (r c : Nat) : Option Cell :=
  (grid[r]?).bind (fun row => row[c]?)

/-- The character at position `c` of row `r` of `asciiWorldMap`, if there is
one. -/
def templateChar (r c : Nat) : Option Char :=
  (asciiWorldMap[r]?).bind (fun line => line.toList[c]?)

/-- Renderers that leave the text as it is, and a `%f` that prints nothing. -/
def plainStyles : Styles :=
  { titleStyle := id, infoStyle := id, labelStyle := id, waterStyle := id,
    landStyle := id, markerStyle := id, mapBorder := id,
    joinHorizontalTop := fun a b => a ++ b, fmtF := fun _ => "" }

/-- A record whose upstream status is "fail". -/
def failRecord : IPInfo :=
  { Query := "203.0.113.7", Status := "fail", Country := "", CountryCode := "",
    Region := "", RegionName := "", City := "", Zip := "", Lat := 0, Lon := 0,
    Timezone := "", Isp := "", Org := "", As := "" }


/-! ## Rounding to binary64 -/

theorem roundHalfEven_bounds (q : ℚ) : ⌊q⌋ ≤ roundHalfEven q ∧ roundHalfEven q ≤ ⌊q⌋ + 1 := by
  unfold roundHalfEven
  simp only
  split_ifs <;> omega

theorem roundHalfEven_intCast (k : Int) : roundHalfEven (k : ℚ) = k := by
  unfold roundHalfEven
  simp

theorem roundHalfEven_eq_of_near (q : ℚ) (k : Int) (h : |q - k| < 1 / 2) :
    roundHalfEven q = k := by
  obtain ⟨h1, h2⟩ := abs_lt.mp h
  unfold roundHalfEven
  by_cases hk : (k : ℚ) ≤ q
  · have hf : ⌊q⌋ = k := Int.floor_eq_iff.mpr ⟨hk, by linarith⟩
    simp only [hf]
    rw [if_pos (by linarith)]
  · have hf : ⌊q⌋ = k - 1 := Int.floor_eq_iff.mpr ⟨by push_cast; linarith, by push_cast; linarith⟩
    simp only [hf]
    rw [if_neg (by push_cast; linarith), if_pos (by push_cast; linarith)]
    omega

theorem roundHalfEven_mono {a b : ℚ} (h : a ≤ b) : roundHalfEven a ≤ roundHalfEven b := by
  have hfl : ⌊a⌋ ≤ ⌊b⌋ := Int.floor_mono h
  rcases hfl.lt_or_eq with hlt | heq
  · have := (roundHalfEven_bounds a).2
    have := (roundHalfEven_bounds b).1
    omega
  · unfold roundHalfEven
    simp only [heq]
    split_ifs <;> first | omega | linarith

theorem f64Ulp_pos (x : ℚ) : 0 < f64Ulp x := by
  unfold f64Ulp
  positivity

theorem f64Exponent_ge (x : ℚ) : -1022 ≤ f64Exponent x := le_max_right _ _

theorem lt_top_of_pos (x : ℚ) : x < (2 : ℚ) ^ (f64Exponent x + 1) := by
  have h1 : x < ((2 : ℕ) : ℚ) ^ (Int.log 2 x + 1) := Int.lt_zpow_succ_log_self (by norm_num) x
  have h2 : ((2 : ℕ) : ℚ) ^ (Int.log 2 x + 1) ≤ (2 : ℚ) ^ (f64Exponent x + 1) := by
    have : Int.log 2 x + 1 ≤ f64Exponent x + 1 := by
      have := le_max_left (Int.log 2 x) (-1022)
      unfold f64Exponent; omega
    simpa using zpow_le_zpow_right₀ (by norm_num : (1 : ℚ) ≤ 2) this
  exact lt_of_lt_of_le h1 h2

theorem bot_le_of_normal {x : ℚ} (hx : 0 < x) (hn : -1022 ≤ Int.log 2 x) :
    (2 : ℚ) ^ f64Exponent x ≤ x := by
  have he : f64Exponent x = Int.log 2 x := max_eq_left hn
  rw [he]
  simpa using Int.zpow_log_le_self (by norm_num : 1 < 2) hx

theorem top_div_ulp (x : ℚ) : (2 : ℚ) ^ (f64Exponent x + 1) / f64Ulp x = ((2 ^ 53 : Int) : ℚ) := by
  unfold f64Ulp
  rw [← zpow_sub₀ (by norm_num : (2 : ℚ) ≠ 0)]
  have : f64Exponent x + 1 - (f64Exponent x - 52) = 53 := by omega
  rw [this]
  norm_num

theorem bot_div_ulp (x : ℚ) : (2 : ℚ) ^ f64Exponent x / f64Ulp x = ((2 ^ 52 : Int) : ℚ) := by
  unfold f64Ulp
  rw [← zpow_sub₀ (by norm_num : (2 : ℚ) ≠ 0)]
  have : f64Exponent x - (f64Exponent x - 52) = 52 := by omega
  rw [this]
  norm_num

theorem roundMag_le_top (x : ℚ) : roundMag x ≤ (2 : ℚ) ^ (f64Exponent x + 1) := by
  have hu := f64Ulp_pos x
  have h1 : x / f64Ulp x ≤ (2 : ℚ) ^ (f64Exponent x + 1) / f64Ulp x :=
    div_le_div_of_nonneg_right (lt_top_of_pos x).le hu.le
  rw [top_div_ulp] at h1
  have h2 := roundHalfEven_mono h1
  rw [roundHalfEven_intCast] at h2
  have h3 : ((roundHalfEven (x / f64Ulp x) : Int) : ℚ) ≤ ((2 ^ 53 : Int) : ℚ) := by
    exact_mod_cast h2
  unfold roundMag
  calc (roundHalfEven (x / f64Ulp x) : ℚ) * f64Ulp x
      ≤ ((2 ^ 53 : Int) : ℚ) * f64Ulp x := mul_le_mul_of_nonneg_right h3 hu.le
    _ = (2 : ℚ) ^ (f64Exponent x + 1) := by
        rw [← top_div_ulp x, div_mul_cancel₀ _ hu.ne']

theorem bot_le_roundMag {x : ℚ} (hx : 0 < x) (hn : -1022 ≤ Int.log 2 x) :
    (2 : ℚ) ^ f64Exponent x ≤ roundMag x := by
  have hu := f64Ulp_pos x
  have h1 : (2 : ℚ) ^ f64Exponent x / f64Ulp x ≤ x / f64Ulp x :=
    div_le_div_of_nonneg_right (bot_le_of_normal hx hn) hu.le
  rw [bot_div_ulp] at h1
  have h2 := roundHalfEven_mono h1
  rw [roundHalfEven_intCast] at h2
  have h3 : ((2 ^ 52 : Int) : ℚ) ≤ ((roundHalfEven (x / f64Ulp x) : Int) : ℚ) := by
    exact_mod_cast h2
  unfold roundMag
  calc (2 : ℚ) ^ f64Exponent x
      = ((2 ^ 52 : Int) : ℚ) * f64Ulp x := by
        rw [← bot_div_ulp x, div_mul_cancel₀ _ hu.ne']
    _ ≤ (roundHalfEven (x / f64Ulp x) : ℚ) * f64Ulp x := mul_le_mul_of_nonneg_right h3 hu.le

theorem roundMag_nonneg {x : ℚ} (hx : 0 ≤ x) : 0 ≤ roundMag x := by
  have hu := f64Ulp_pos x
  have h0 : (0 : ℚ) ≤ x / f64Ulp x := div_nonneg hx hu.le
  have h1 : 0 ≤ ⌊x / f64Ulp x⌋ := Int.floor_nonneg.mpr h0
  have h2 := (roundHalfEven_bounds (x / f64Ulp x)).1
  have h3 : (0 : ℚ) ≤ ((roundHalfEven (x / f64Ulp x) : Int) : ℚ) := by
    exact_mod_cast le_trans h1 h2
  unfold roundMag
  exact mul_nonneg h3 hu.le

theorem roundMag_zero : roundMag 0 = 0 := by
  unfold roundMag
  rw [zero_div]
  have : roundHalfEven (0 : ℚ) = 0 := by
    have := roundHalfEven_intCast 0
    simpa using this
  rw [this]
  simp

theorem roundMag_mono_pos {x y : ℚ} (hx : 0 < x) (h : x ≤ y) : roundMag x ≤ roundMag y := by
  have hy : 0 < y := lt_of_lt_of_le hx h
  have hlog : Int.log 2 x ≤ Int.log 2 y := Int.log_mono_right hx h
  have hexp : f64Exponent x ≤ f64Exponent y := max_le_max hlog le_rfl
  rcases hexp.lt_or_eq with hlt | heq
  · have hn : -1022 ≤ Int.log 2 y := by
      by_contra hc
      have hey : f64Exponent y = -1022 := max_eq_right (by omega)
      have := f64Exponent_ge x
      omega
    have h1 := roundMag_le_top x
    have h2 := bot_le_roundMag hy hn
    have h3 : (2 : ℚ) ^ (f64Exponent x + 1) ≤ (2 : ℚ) ^ f64Exponent y :=
      zpow_le_zpow_right₀ (by norm_num) (by omega)
    exact le_trans h1 (le_trans h3 h2)
  · have hu : f64Ulp x = f64Ulp y := by unfold f64Ulp; rw [heq]
    have hupos := f64Ulp_pos y
    unfold roundMag
    rw [hu]
    have h1 : x / f64Ulp y ≤ y / f64Ulp y := div_le_div_of_nonneg_right h hupos.le
    have h2 := roundHalfEven_mono h1
    have h3 : ((roundHalfEven (x / f64Ulp y) : Int) : ℚ) ≤ ((roundHalfEven (y / f64Ulp y) : Int) : ℚ) := by
      exact_mod_cast h2
    exact mul_le_mul_of_nonneg_right h3 hupos.le

theorem roundMag_mono {x y : ℚ} (hx : 0 ≤ x) (h : x ≤ y) : roundMag x ≤ roundMag y := by
  rcases hx.lt_or_eq with hpos | hzero
  · exact roundMag_mono_pos hpos h
  · rw [← hzero, roundMag_zero]
    exact roundMag_nonneg (le_trans hx h)

/-- Rounding to binary64 is monotone. -/
theorem roundF64_mono {x y : ℚ} (h : x ≤ y) : roundF64 x ≤ roundF64 y := by
  unfold roundF64
  by_cases hx : 0 ≤ x
  · have hy : 0 ≤ y := le_trans hx h
    rw [if_pos hx, if_pos hy]
    exact roundMag_mono hx h
  · rw [if_neg hx]
    have hx' : 0 ≤ -x := by linarith
    by_cases hy : 0 ≤ y
    · rw [if_pos hy]
      have := roundMag_nonneg hx'
      have := roundMag_nonneg hy
      linarith
    · rw [if_neg hy]
      have hy' : 0 ≤ -y := by linarith
      have := roundMag_mono hy' (by linarith : -y ≤ -x)
      linarith

theorem f64Exponent_of_bounds {x : ℚ} {e : Int} (he : -1022 ≤ e) (h1 : (2 : ℚ) ^ e ≤ x)
    (h2 : x < (2 : ℚ) ^ (e + 1)) : f64Exponent x = e := by
  have hx : 0 < x := lt_of_lt_of_le (by positivity) h1
  have ha : e ≤ Int.log 2 x :=
    (Int.zpow_le_iff_le_log (by norm_num : 1 < 2) hx).mp (by simpa using h1)
  have hb : Int.log 2 x < e + 1 :=
    (Int.lt_zpow_iff_log_lt (by norm_num : 1 < 2) hx).mp (by simpa using h2)
  unfold f64Exponent
  rw [max_eq_left (by omega)]
  omega

/-- A positive value closer than half a unit in the last place to a multiple
of that unit rounds to it. -/
theorem roundF64_eq_of_near (x v : ℚ) (e k : Int) (he : -1022 ≤ e)
    (h1 : (2 : ℚ) ^ e ≤ x) (h2 : x < (2 : ℚ) ^ (e + 1))
    (hv : v = (k : ℚ) * (2 : ℚ) ^ (e - 52)) (hn : |x - v| < (2 : ℚ) ^ (e - 53)) :
    roundF64 x = v := by
  have hx : 0 < x := lt_of_lt_of_le (by positivity) h1
  have hexp := f64Exponent_of_bounds he h1 h2
  have hu : f64Ulp x = (2 : ℚ) ^ (e - 52) := by unfold f64Ulp; rw [hexp]
  have hupos : (0 : ℚ) < (2 : ℚ) ^ (e - 52) := by positivity
  have hhalf : (2 : ℚ) ^ (e - 53) = (2 : ℚ) ^ (e - 52) * (1 / 2) := by
    have : e - 53 = (e - 52) + (-1) := by omega
    rw [this, zpow_add₀ (by norm_num : (2 : ℚ) ≠ 0)]
    norm_num
  have hq : |x / (2 : ℚ) ^ (e - 52) - (k : ℚ)| < 1 / 2 := by
    have : x / (2 : ℚ) ^ (e - 52) - (k : ℚ) = (x - v) / (2 : ℚ) ^ (e - 52) := by
      rw [hv]; field_simp; ring
    rw [this, abs_div, abs_of_pos hupos, div_lt_iff₀ hupos]
    calc |x - v| < (2 : ℚ) ^ (e - 53) := hn
      _ = 1 / 2 * (2 : ℚ) ^ (e - 52) := by rw [hhalf]; ring
  unfold roundF64
  rw [if_pos hx.le]
  unfold roundMag
  rw [hu, roundHalfEven_eq_of_near _ k hq, hv]

/-- A tie below an even integer rounds up to it. -/
theorem roundHalfEven_tie_even (k : Int) (hk : k % 2 = 0) :
    roundHalfEven ((k : ℚ) - 1 / 2) = k := by
  have hf : ⌊(k : ℚ) - 1 / 2⌋ = k - 1 :=
    Int.floor_eq_iff.mpr ⟨by push_cast; linarith, by push_cast; linarith⟩
  unfold roundHalfEven
  simp only [hf]
  have hfr : (k : ℚ) - 1 / 2 - ((k - 1 : Int) : ℚ) = 1 / 2 := by push_cast; ring
  rw [hfr, if_neg (lt_irrefl _), if_neg (lt_irrefl _), if_neg (by omega)]
  omega

/-- A positive value halfway below an even multiple of its unit in the last
place rounds up to that multiple. -/
theorem roundF64_eq_of_tie_even (x v : ℚ) (e k : Int) (he : -1022 ≤ e)
    (h1 : (2 : ℚ) ^ e ≤ x) (h2 : x < (2 : ℚ) ^ (e + 1)) (hk : k % 2 = 0)
    (hv : v = (k : ℚ) * (2 : ℚ) ^ (e - 52)) (hx : x = v - (2 : ℚ) ^ (e - 53)) :
    roundF64 x = v := by
  have hx0 : 0 < x := lt_of_lt_of_le (by positivity) h1
  have hexp := f64Exponent_of_bounds he h1 h2
  have hu : f64Ulp x = (2 : ℚ) ^ (e - 52) := by unfold f64Ulp; rw [hexp]
  have hupos : (0 : ℚ) < (2 : ℚ) ^ (e - 52) := by positivity
  have hhalf : (2 : ℚ) ^ (e - 53) = (2 : ℚ) ^ (e - 52) * (1 / 2) := by
    have : e - 53 = (e - 52) + (-1) := by omega
    rw [this, zpow_add₀ (by norm_num : (2 : ℚ) ≠ 0)]
    norm_num
  have hq : x / (2 : ℚ) ^ (e - 52) = (k : ℚ) - 1 / 2 := by
    rw [hx, hv, hhalf]
    field_simp
    ring
  unfold roundF64
  rw [if_pos hx0.le]
  unfold roundMag
  rw [hu, hq, roundHalfEven_tie_even k hk, hv]

theorem roundMag_of_grid (k : Nat) (j : Int) (hk : k < 2 ^ 53) (hj : -1074 ≤ j) :
    roundMag ((k : ℚ) * (2 : ℚ) ^ j) = (k : ℚ) * (2 : ℚ) ^ j := by
  rcases Nat.eq_zero_or_pos k with h0 | hpos
  · subst h0
    simp [roundMag_zero]
  · have h2j : (0 : ℚ) < (2 : ℚ) ^ j := by positivity
    have hx : (0 : ℚ) < (k : ℚ) * (2 : ℚ) ^ j := mul_pos (by exact_mod_cast hpos) h2j
    have hlt : (k : ℚ) * (2 : ℚ) ^ j < ((2 : ℕ) : ℚ) ^ (53 + j) := by
      have hk' : (k : ℚ) < (2 : ℚ) ^ (53 : Int) := by
        have h53 : (2 : ℚ) ^ (53 : Int) = ((2 ^ 53 : ℕ) : ℚ) := by norm_num
        rw [h53]
        exact_mod_cast hk
      have := mul_lt_mul_of_pos_right hk' h2j
      rw [← zpow_add₀ (by norm_num : (2 : ℚ) ≠ 0)] at this
      simpa using this
    have hlog : Int.log 2 ((k : ℚ) * (2 : ℚ) ^ j) < 53 + j :=
      (Int.lt_zpow_iff_log_lt (by norm_num : 1 < 2) hx).mp hlt
    have hexp : f64Exponent ((k : ℚ) * (2 : ℚ) ^ j) - 52 ≤ j := by
      unfold f64Exponent
      rcases max_cases (Int.log 2 ((k : ℚ) * (2 : ℚ) ^ j)) (-1022) with ⟨h, _⟩ | ⟨h, _⟩ <;>
        rw [h] <;> omega
    obtain ⟨n, hn⟩ := Int.eq_ofNat_of_zero_le (sub_nonneg.mpr hexp)
    have hu : f64Ulp ((k : ℚ) * (2 : ℚ) ^ j) = (2 : ℚ) ^ (j - (n : Int)) := by
      unfold f64Ulp
      congr 1
      omega
    have hupos : (0 : ℚ) < (2 : ℚ) ^ (j - (n : Int)) := by positivity
    have hq : (k : ℚ) * (2 : ℚ) ^ j / (2 : ℚ) ^ (j - (n : Int)) = (((k * 2 ^ n : Nat) : Int) : ℚ) := by
      rw [mul_div_assoc, ← zpow_sub₀ (by norm_num : (2 : ℚ) ≠ 0)]
      have : j - (j - (n : Int)) = (n : Int) := by omega
      rw [this, zpow_natCast]
      push_cast
      ring
    unfold roundMag
    rw [hu, hq, roundHalfEven_intCast, ← hq, div_mul_cancel₀ _ hupos.ne']

/-- A value `k * 2^j` with `|k| < 2^53` and `j ≥ -1074` is a binary64 and
rounds to itself. -/
theorem roundF64_of_grid (x : ℚ) (k j : Int) (hk : |k| < 2 ^ 53) (hj : -1074 ≤ j)
    (hx : x = (k : ℚ) * (2 : ℚ) ^ j) : roundF64 x = x := by
  have h2j : (0 : ℚ) < (2 : ℚ) ^ j := by positivity
  obtain ⟨hk1, hk2⟩ := abs_lt.mp hk
  unfold roundF64
  by_cases h0 : 0 ≤ k
  · have hx0 : 0 ≤ x := by rw [hx]; exact mul_nonneg (by exact_mod_cast h0) h2j.le
    rw [if_pos hx0]
    have hc : ((k.toNat : Nat) : ℚ) = (k : ℚ) := by
      have : ((k.toNat : Nat) : Int) = k := Int.toNat_of_nonneg h0
      exact_mod_cast this
    have := roundMag_of_grid k.toNat j (by omega) hj
    rw [hc, ← hx] at this
    exact this
  · have hkneg : k < 0 := not_le.mp h0
    have hx0 : ¬ 0 ≤ x := by
      rw [hx]; push_neg
      exact mul_neg_of_neg_of_pos (by exact_mod_cast hkneg) h2j
    rw [if_neg hx0]
    have hc : (((-k).toNat : Nat) : ℚ) = -(k : ℚ) := by
      have : (((-k).toNat : Nat) : Int) = -k := Int.toNat_of_nonneg (by omega)
      exact_mod_cast this
    have := roundMag_of_grid (-k).toNat j (by omega) hj
    rw [hc] at this
    have hnx : -x = -(k : ℚ) * (2 : ℚ) ^ j := by rw [hx]; ring
    rw [hnx, this, hx]
    ring

/-! ## Arithmetic of the conversion and the clamps -/

theorem truncQ_of_nonneg {q : ℚ} (h : 0 ≤ q) : truncQ q = ⌊q⌋ := by
  simp [truncQ, h]

theorem truncQ_of_neg {q : ℚ} (h : q < 0) : truncQ q = ⌈q⌉ := by
  simp [truncQ, not_le.mpr h]

theorem floor_le_truncQ (q : ℚ) : ⌊q⌋ ≤ truncQ q := by
  by_cases h : 0 ≤ q
  · rw [truncQ_of_nonneg h]
  · rw [truncQ_of_neg (not_le.mp h)]
    exact Int.floor_le_ceil q

theorem truncQ_nonpos_of_neg {q : ℚ} (h : q < 0) : truncQ q ≤ 0 := by
  rw [truncQ_of_neg h]
  exact Int.ceil_le.mpr (by exact_mod_cast h.le)

theorem floor_neg_of_neg {q : ℚ} (h : q < 0) : ⌊q⌋ < 0 := by
  exact Int.floor_lt.mpr (by exact_mod_cast h)

/-- Truncate-then-clamp agrees with floor-then-clamp. -/
theorem clamp_truncQ (w : Int) (hw : 1 ≤ w) (q : ℚ) :
    (let x := truncQ q
     let x := if x < 0 then 0 else x
     if x ≥ w then w - 1 else x) = max 0 (min (w - 1) ⌊q⌋) := by
  by_cases h : 0 ≤ q
  · have h0 : 0 ≤ ⌊q⌋ := Int.floor_nonneg.mpr h
    rw [truncQ_of_nonneg h]
    simp only [max_def, min_def]
    split_ifs <;> omega
  · have h1 := truncQ_nonpos_of_neg (not_le.mp h)
    have h2 := floor_neg_of_neg (not_le.mp h)
    simp only [max_def, min_def]
    split_ifs <;> omega

/-- Whatever the conversion returned, the clamp tests leave a value in range. -/
theorem clamp_range (w x : Int) (hw : 1 ≤ w) :
    0 ≤ (let x := if x < 0 then 0 else x
         if x ≥ w then w - 1 else x) ∧
    (let x := if x < 0 then 0 else x
     if x ≥ w then w - 1 else x) ≤ w - 1 := by
  simp only
  split_ifs <;> omega

theorem buildGrid_length : buildGrid.length = 17 := by
  simp [buildGrid, asciiWorldMap]

theorem markerX_range (ovf : ℚ → Int) (lon : ℚ) :
    0 ≤ markerX ovf lon ∧ markerX ovf lon ≤ 63 := by
  have h := clamp_range 64 (floatToInt ovf (quotX lon)) (by norm_num)
  simpa [markerX, width] using h

theorem markerY_range (ovf : ℚ → Int) (lat : ℚ) :
    0 ≤ markerY ovf lat ∧ markerY ovf lat ≤ 16 := by
  have h := clamp_range 17 (floatToInt ovf (quotY lat)) (by norm_num)
  simpa [markerY, clampY, buildGrid_length] using h

theorem markerX_eq_floor (ovf : ℚ → Int) (lon : ℚ) (h : FitsInt (quotX lon)) :
    markerX ovf lon = floorColumn lon := by
  have hc := clamp_truncQ 64 (by norm_num) (quotX lon)
  have hf : floatToInt ovf (quotX lon) = truncQ (quotX lon) := if_pos h
  unfold markerX floorColumn
  rw [hf]
  simpa [width] using hc

theorem markerY_eq_floor (ovf : ℚ → Int) (lat : ℚ) (h : FitsInt (quotY lat)) :
    markerY ovf lat = floorRow lat := by
  have hc := clamp_truncQ 17 (by norm_num) (quotY lat)
  have hf : floatToInt ovf (quotY lat) = truncQ (quotY lat) := if_pos h
  unfold markerY clampY floorRow
  rw [hf, buildGrid_length]
  simpa [height] using hc

theorem fitsInt_of_floor {q : ℚ} {k : Int} (hk0 : 0 ≤ k) (hk : k ≤ maxInt)
    (h1 : (k : ℚ) ≤ q) (h2 : q < (k : ℚ) + 1) : ⌊q⌋ = k ∧ FitsInt q := by
  have hf : ⌊q⌋ = k := Int.floor_eq_iff.mpr ⟨h1, h2⟩
  have hq : (0 : ℚ) ≤ q := le_trans (by exact_mod_cast hk0) h1
  refine ⟨hf, ?_⟩
  unfold FitsInt
  rw [truncQ_of_nonneg hq, hf]
  constructor
  · unfold minInt; omega
  · exact hk

/-- The column of a longitude whose `float64` quotient lies in `[k, k + 1)`. -/
theorem markerX_of_bounds (ovf : ℚ → Int) (lon : ℚ) (k : Int) (hk0 : 0 ≤ k) (hk : k ≤ 63)
    (h1 : (k : ℚ) ≤ quotX lon) (h2 : quotX lon < (k : ℚ) + 1) : markerX ovf lon = k := by
  obtain ⟨hf, hfit⟩ := fitsInt_of_floor hk0 (by unfold maxInt; omega) h1 h2
  rw [markerX_eq_floor ovf lon hfit]
  unfold floorColumn
  rw [hf]
  simp only [max_def, min_def, width]
  split_ifs <;> omega

/-- The row of a latitude whose `float64` quotient lies in `[k, k + 1)`. -/
theorem markerY_of_bounds (ovf : ℚ → Int) (lat : ℚ) (k : Int) (hk0 : 0 ≤ k) (hk : k ≤ 16)
    (h1 : (k : ℚ) ≤ quotY lat) (h2 : quotY lat < (k : ℚ) + 1) : markerY ovf lat = k := by
  obtain ⟨hf, hfit⟩ := fitsInt_of_floor hk0 (by unfold maxInt; omega) h1 h2
  rw [markerY_eq_floor ovf lat hfit]
  unfold floorRow
  rw [hf]
  simp only [max_def, min_def, height]
  split_ifs <;> omega

/-- A value at or beyond `2^63` is not representable. -/
theorem not_fitsInt_of_large {q : ℚ} (h : (2 : ℚ) ^ 63 ≤ q) : ¬ FitsInt q := by
  have hq : (0 : ℚ) ≤ q := le_trans (by norm_num) h
  have hfl : (2 : Int) ^ 63 ≤ ⌊q⌋ := Int.le_floor.mpr (by exact_mod_cast h)
  unfold FitsInt
  rw [truncQ_of_nonneg hq]
  unfold maxInt
  omega

/-- On x86-64 a longitude whose `float64` quotient is at or beyond `2^63`
lands in column 0. -/
theorem markerX_amd64_of_large {lon : ℚ} (h : (2 : ℚ) ^ 63 ≤ quotX lon) :
    markerX ovfAmd64 lon = 0 := by
  have hf : floatToInt ovfAmd64 (quotX lon) = minInt := if_neg (not_fitsInt_of_large h)
  unfold markerX
  rw [hf]
  simp [minInt, width]

/-- On x86-64 a latitude whose `float64` quotient is at or beyond `2^63` lands
in row 0. -/
theorem markerY_amd64_of_large {lat : ℚ} (h : (2 : ℚ) ^ 63 ≤ quotY lat) :
    markerY ovfAmd64 lat = 0 := by
  have hf : floatToInt ovfAmd64 (quotY lat) = minInt := if_neg (not_fitsInt_of_large h)
  unfold markerY clampY
  rw [hf, buildGrid_length]
  simp [minInt]

theorem quotX_mono {a b : ℚ} (h : a ≤ b) : quotX a ≤ quotX b := by
  unfold quotX fmul fdiv fadd
  have h1 : roundF64 (a + 180) ≤ roundF64 (b + 180) := roundF64_mono (by linarith)
  have h2 : roundF64 (roundF64 (a + 180) / 360) ≤ roundF64 (roundF64 (b + 180) / 360) :=
    roundF64_mono (div_le_div_of_nonneg_right h1 (by norm_num))
  exact roundF64_mono (mul_le_mul_of_nonneg_right h2 (by simp [width]))

theorem quotY_anti {a b : ℚ} (h : a ≤ b) : quotY b ≤ quotY a := by
  unfold quotY fmul fdiv fsub
  have h1 : roundF64 (90 - b) ≤ roundF64 (90 - a) := roundF64_mono (by linarith)
  have h2 : roundF64 (roundF64 (90 - b) / 180) ≤ roundF64 (roundF64 (90 - a) / 180) :=
    roundF64_mono (div_le_div_of_nonneg_right h1 (by norm_num))
  exact roundF64_mono (mul_le_mul_of_nonneg_right h2 (by simp [height]))

theorem floorColumn_mono {a b : ℚ} (h : a ≤ b) : floorColumn a ≤ floorColumn b := by
  unfold floorColumn
  have := Int.floor_mono (quotX_mono h)
  simp only [max_def, min_def]
  split_ifs <;> omega

theorem floorRow_anti {a b : ℚ} (h : a ≤ b) : floorRow b ≤ floorRow a := by
  unfold floorRow
  have := Int.floor_mono (quotY_anti h)
  simp only [max_def, min_def]
  split_ifs <;> omega

/-- The three roundings of `quotX`, one after the other. -/
theorem quotX_of_steps (lon a b c : ℚ) (ha : roundF64 (lon + 180) = a)
    (hb : roundF64 (a / 360) = b) (hc : roundF64 (b * 64) = c) : quotX lon = c := by
  unfold quotX fmul fdiv fadd
  rw [ha, hb]
  simpa [width] using hc

/-- The three roundings of `quotY`, one after the other. -/
theorem quotY_of_steps (lat a b c : ℚ) (ha : roundF64 (90 - lat) = a)
    (hb : roundF64 (a / 180) = b) (hc : roundF64 (b * 17) = c) : quotY lat = c := by
  unfold quotY fmul fdiv fsub
  rw [ha, hb]
  simpa [height] using hc

/-- A value that equals the binary64 `k * 2^j` rounds to it. -/
theorem roundF64_eq_grid (x v : ℚ) (k j : Int) (hk : |k| < 2 ^ 53) (hj : -1074 ≤ j)
    (hv : v = (k : ℚ) * (2 : ℚ) ^ j) (hx : x = v) : roundF64 x = v := by
  rw [hx]
  exact roundF64_of_grid v k j hk hj hv

/-- A value between `-2^63` and `2^63 - 1` converts without overflow. -/
theorem fitsInt_of_bounds {q : ℚ} (h1 : -(2 : ℚ) ^ 63 ≤ q) (h2 : q ≤ (2 : ℚ) ^ 63 - 1) :
    FitsInt q := by
  unfold FitsInt minInt maxInt
  by_cases h : 0 ≤ q
  · rw [truncQ_of_nonneg h]
    have h0 : 0 ≤ ⌊q⌋ := Int.floor_nonneg.mpr h
    have h3 : ((⌊q⌋ : Int) : ℚ) ≤ (2 : ℚ) ^ 63 - 1 := le_trans (Int.floor_le q) h2
    have h4 : ⌊q⌋ ≤ (2 : Int) ^ 63 - 1 := by exact_mod_cast h3
    omega
  · have hneg := not_le.mp h
    have h5 := truncQ_nonpos_of_neg hneg
    rw [truncQ_of_neg hneg] at h5 ⊢
    have h3 : -(2 : ℚ) ^ 63 ≤ ((⌈q⌉ : Int) : ℚ) := le_trans h1 (Int.le_ceil q)
    have h4 : -(2 : Int) ^ 63 ≤ ⌈q⌉ := by exact_mod_cast h3
    omega


/-! ## Values of the quotients at chosen inputs -/

theorem quotX_neg180 : quotX (-180) = 0 :=
  quotX_of_steps _ (0) (0) (0)
    (roundF64_eq_grid _ _ 0 0 (by norm_num) (by norm_num) (by norm_num) (by norm_num))
    (roundF64_eq_grid _ _ 0 0 (by norm_num) (by norm_num) (by norm_num) (by norm_num))
    (roundF64_eq_grid _ _ 0 0 (by norm_num) (by norm_num) (by norm_num) (by norm_num))

theorem quotX_180 : quotX 180 = 64 :=
  quotX_of_steps _ (360) (1) (64)
    (roundF64_eq_grid _ _ 45 3 (by norm_num) (by norm_num) (by norm_num) (by norm_num))
    (roundF64_eq_grid _ _ 1 0 (by norm_num) (by norm_num) (by norm_num) (by norm_num))
    (roundF64_eq_grid _ _ 1 6 (by norm_num) (by norm_num) (by norm_num) (by norm_num))

theorem quotX_zero : quotX 0 = 32 :=
  quotX_of_steps _ (180) (1 / 2) (32)
    (roundF64_eq_grid _ _ 45 2 (by norm_num) (by norm_num) (by norm_num) (by norm_num))
    (roundF64_eq_grid _ _ 1 (-1) (by norm_num) (by norm_num) (by norm_num) (by norm_num))
    (roundF64_eq_grid _ _ 1 5 (by norm_num) (by norm_num) (by norm_num) (by norm_num))

theorem quotX_neg5625 : quotX (-45 / 8) = 31 :=
  quotX_of_steps _ (1395 / 8) (31 / 64) (31)
    (roundF64_eq_grid _ _ 1395 (-3) (by norm_num) (by norm_num) (by norm_num) (by norm_num))
    (roundF64_eq_grid _ _ 31 (-6) (by norm_num) (by norm_num) (by norm_num) (by norm_num))
    (roundF64_eq_grid _ _ 31 0 (by norm_num) (by norm_num) (by norm_num) (by norm_num))

theorem quotX_neg45_512 : quotX (-45 / 512) = 2047 / 64 :=
  quotX_of_steps _ (92115 / 512) (2047 / 4096) (2047 / 64)
    (roundF64_eq_grid _ _ 92115 (-9) (by norm_num) (by norm_num) (by norm_num) (by norm_num))
    (roundF64_eq_grid _ _ 2047 (-12) (by norm_num) (by norm_num) (by norm_num) (by norm_num))
    (roundF64_eq_grid _ _ 2047 (-6) (by norm_num) (by norm_num) (by norm_num) (by norm_num))

theorem quotX_neg540 : quotX (-540) = -64 :=
  quotX_of_steps _ (-360) (-1) (-64)
    (roundF64_eq_grid _ _ (-45) 3 (by norm_num) (by norm_num) (by norm_num) (by norm_num))
    (roundF64_eq_grid _ _ (-1) 0 (by norm_num) (by norm_num) (by norm_num) (by norm_num))
    (roundF64_eq_grid _ _ (-1) 6 (by norm_num) (by norm_num) (by norm_num) (by norm_num))

theorem quotX_large : quotX (180 * (2 ^ 58 - 1)) = 2 ^ 63 :=
  quotX_of_steps _ (45 * 2 ^ 60) (2 ^ 57) (2 ^ 63)
    (roundF64_eq_grid _ _ 45 60 (by norm_num) (by norm_num) (by norm_num) (by norm_num))
    (roundF64_eq_grid _ _ 1 57 (by norm_num) (by norm_num) (by norm_num) (by norm_num))
    (roundF64_eq_grid _ _ 1 63 (by norm_num) (by norm_num) (by norm_num) (by norm_num))

theorem quotY_90 : quotY 90 = 0 :=
  quotY_of_steps _ (0) (0) (0)
    (roundF64_eq_grid _ _ 0 0 (by norm_num) (by norm_num) (by norm_num) (by norm_num))
    (roundF64_eq_grid _ _ 0 0 (by norm_num) (by norm_num) (by norm_num) (by norm_num))
    (roundF64_eq_grid _ _ 0 0 (by norm_num) (by norm_num) (by norm_num) (by norm_num))

theorem quotY_neg90 : quotY (-90) = 17 :=
  quotY_of_steps _ (180) (1) (17)
    (roundF64_eq_grid _ _ 45 2 (by norm_num) (by norm_num) (by norm_num) (by norm_num))
    (roundF64_eq_grid _ _ 1 0 (by norm_num) (by norm_num) (by norm_num) (by norm_num))
    (roundF64_eq_grid _ _ 17 0 (by norm_num) (by norm_num) (by norm_num) (by norm_num))

theorem quotY_zero : quotY 0 = 17 / 2 :=
  quotY_of_steps _ (90) (1 / 2) (17 / 2)
    (roundF64_eq_grid _ _ 45 1 (by norm_num) (by norm_num) (by norm_num) (by norm_num))
    (roundF64_eq_grid _ _ 1 (-1) (by norm_num) (by norm_num) (by norm_num) (by norm_num))
    (roundF64_eq_grid _ _ 17 (-1) (by norm_num) (by norm_num) (by norm_num) (by norm_num))

theorem quotY_50625 : quotY (405 / 8) = 119 / 32 :=
  quotY_of_steps _ (315 / 8) (7 / 32) (119 / 32)
    (roundF64_eq_grid _ _ 315 (-3) (by norm_num) (by norm_num) (by norm_num) (by norm_num))
    (roundF64_eq_grid _ _ 7 (-5) (by norm_num) (by norm_num) (by norm_num) (by norm_num))
    (roundF64_eq_grid _ _ 119 (-5) (by norm_num) (by norm_num) (by norm_num) (by norm_num))

theorem quotY_5625 : quotY (225 / 4) = 51 / 16 :=
  quotY_of_steps _ (135 / 4) (3 / 16) (51 / 16)
    (roundF64_eq_grid _ _ 135 (-2) (by norm_num) (by norm_num) (by norm_num) (by norm_num))
    (roundF64_eq_grid _ _ 3 (-4) (by norm_num) (by norm_num) (by norm_num) (by norm_num))
    (roundF64_eq_grid _ _ 51 (-4) (by norm_num) (by norm_num) (by norm_num) (by norm_num))

theorem quotY_270 : quotY 270 = -17 :=
  quotY_of_steps _ (-180) (-1) (-17)
    (roundF64_eq_grid _ _ (-45) 2 (by norm_num) (by norm_num) (by norm_num) (by norm_num))
    (roundF64_eq_grid _ _ (-1) 0 (by norm_num) (by norm_num) (by norm_num) (by norm_num))
    (roundF64_eq_grid _ _ (-17) 0 (by norm_num) (by norm_num) (by norm_num) (by norm_num))

theorem quotY_large : quotY (90 - 2745 * 2 ^ 55) = 1037 * 2 ^ 53 :=
  quotY_of_steps _ (2745 * 2 ^ 55) (61 * 2 ^ 53) (1037 * 2 ^ 53)
    (roundF64_eq_grid _ _ 2745 55 (by norm_num) (by norm_num) (by norm_num) (by norm_num))
    (roundF64_eq_grid _ _ 61 53 (by norm_num) (by norm_num) (by norm_num) (by norm_num))
    (roundF64_eq_grid _ _ 1037 53 (by norm_num) (by norm_num) (by norm_num) (by norm_num))

/-- The sum `lonBelow5625 + 180` is `174.375 - 2^-50`; it rounds up to
174.375, whose quotient by 360 is exactly `31 / 64`. -/
theorem quotX_lonBelow5625 : quotX lonBelow5625 = 31 :=
  quotX_of_steps _ (1395 / 8) (31 / 64) 31
    (roundF64_eq_of_near _ _ 7 (1395 * 2 ^ 42) (by norm_num)
      (by norm_num [lonBelow5625]) (by norm_num [lonBelow5625]) (by norm_num)
      (by norm_num [lonBelow5625, abs_lt]))
    (roundF64_eq_grid _ _ 31 (-6) (by norm_num) (by norm_num) (by norm_num) (by norm_num))
    (roundF64_eq_grid _ _ 31 0 (by norm_num) (by norm_num) (by norm_num) (by norm_num))

/-- The sum `lonTie + 180` is `118.125 - 2^-47`, halfway between two binary64
values; the tie goes to 118.125, whose quotient by 360 is exactly `21 / 64`. -/
theorem quotX_lonTie : quotX lonTie = 21 :=
  quotX_of_steps _ (945 / 8) (21 / 64) 21
    (roundF64_eq_of_tie_even _ _ 6 (945 * 2 ^ 43) (by norm_num)
      (by norm_num [lonTie]) (by norm_num [lonTie]) (by norm_num) (by norm_num)
      (by norm_num [lonTie]))
    (roundF64_eq_grid _ _ 21 (-6) (by norm_num) (by norm_num) (by norm_num) (by norm_num))
    (roundF64_eq_grid _ _ 21 0 (by norm_num) (by norm_num) (by norm_num) (by norm_num))

theorem fitsInt_quotX_of_range {lon : ℚ} (h1 : -540 ≤ lon) (h2 : lon ≤ 180) :
    FitsInt (quotX lon) := by
  have ha := quotX_mono h1
  have hb := quotX_mono h2
  rw [quotX_neg540] at ha
  rw [quotX_180] at hb
  exact fitsInt_of_bounds (le_trans (by norm_num) ha) (le_trans hb (by norm_num))

theorem fitsInt_quotY_of_range {lat : ℚ} (h1 : -90 ≤ lat) (h2 : lat ≤ 270) :
    FitsInt (quotY lat) := by
  have ha := quotY_anti h1
  have hb := quotY_anti h2
  rw [quotY_neg90] at ha
  rw [quotY_270] at hb
  exact fitsInt_of_bounds (le_trans (by norm_num) hb) (le_trans ha (by norm_num))

/-- Geographic coordinates convert without overflow. -/
theorem fitsInt_of_geographic (lat lon : ℚ) (hlat : -90 ≤ lat ∧ lat ≤ 90)
    (hlon : -180 ≤ lon ∧ lon ≤ 180) : FitsInt (quotX lon) ∧ FitsInt (quotY lat) :=
  ⟨fitsInt_quotX_of_range (by linarith [hlon.1]) hlon.2,
   fitsInt_quotY_of_range hlat.1 (by linarith [hlat.2])⟩

theorem markerX_lonMinus012 (ovf : ℚ → Int) : markerX ovf lonMinus012 = 31 := by
  have ha : quotX (-45 / 8) ≤ quotX lonMinus012 := quotX_mono (by norm_num [lonMinus012])
  have hb : quotX lonMinus012 ≤ quotX (-45 / 512) := quotX_mono (by norm_num [lonMinus012])
  rw [quotX_neg5625] at ha
  rw [quotX_neg45_512] at hb
  exact markerX_of_bounds ovf _ 31 (by norm_num) (by norm_num)
    (by exact_mod_cast ha) (lt_of_le_of_lt hb (by norm_num))

theorem markerY_515 (ovf : ℚ → Int) : markerY ovf (103 / 2) = 3 := by
  have ha : quotY (225 / 4) ≤ quotY (103 / 2) := quotY_anti (by norm_num)
  have hb : quotY (103 / 2) ≤ quotY (405 / 8) := quotY_anti (by norm_num)
  rw [quotY_5625] at ha
  rw [quotY_50625] at hb
  exact markerY_of_bounds ovf _ 3 (by norm_num) (by norm_num)
    (le_trans (by norm_num) ha) (lt_of_le_of_lt hb (by norm_num))

/-! ## No operation of the projection leaves the finite binary64 range -/

theorem roundF64_abs_le_pow (x : ℚ) (n : Int) (hn : -1074 ≤ n) (h : |x| ≤ (2 : ℚ) ^ n) :
    |roundF64 x| ≤ (2 : ℚ) ^ n := by
  obtain ⟨h1, h2⟩ := abs_le.mp h
  have hp : roundF64 ((2 : ℚ) ^ n) = (2 : ℚ) ^ n :=
    roundF64_of_grid _ 1 n (by norm_num) hn (by norm_num)
  have hm : roundF64 (-(2 : ℚ) ^ n) = -(2 : ℚ) ^ n :=
    roundF64_of_grid _ (-1) n (by norm_num) hn (by norm_num)
  have ha := roundF64_mono h1
  have hb := roundF64_mono h2
  rw [hm] at ha
  rw [hp] at hb
  exact abs_le.mpr ⟨ha, hb⟩

theorem f64Max_lt : f64Max < (2 : ℚ) ^ (1024 : Int) := by
  norm_num [f64Max]

theorem roundF64_f64Max_add (c : ℚ) (h0 : 0 ≤ c) (hc : c ≤ 180) :
    roundF64 (f64Max + c) = f64Max :=
  roundF64_eq_of_near _ _ 1023 (2 ^ 53 - 1) (by norm_num)
    (by have : (2 : ℚ) ^ (1023 : Int) ≤ f64Max := by norm_num [f64Max]
        linarith)
    (by have : f64Max + 180 < (2 : ℚ) ^ ((1023 : Int) + 1) := by norm_num [f64Max]
        linarith)
    (by norm_num [f64Max])
    (by have h1 : f64Max + c - f64Max = c := by ring
        rw [h1, abs_of_nonneg h0]
        exact lt_of_le_of_lt hc (by norm_num))

theorem roundF64_neg_f64Max : roundF64 (-f64Max) = -f64Max :=
  roundF64_of_grid _ (-(2 ^ 53 - 1)) 971 (by norm_num) (by norm_num) (by norm_num [f64Max])

theorem scaled_finite (a d w : ℚ) (ha : |a| ≤ f64Max) (hd : 180 ≤ d) (hw0 : 0 ≤ w)
    (hw : w ≤ 64) :
    |roundF64 (a / d)| ≤ f64Max ∧ |roundF64 (roundF64 (a / d) * w)| ≤ f64Max := by
  have hdpos : (0 : ℚ) < d := by linarith
  have h1 : |a / d| ≤ (2 : ℚ) ^ (1017 : Int) := by
    rw [abs_div, abs_of_pos hdpos, div_le_iff₀ hdpos]
    have h3 : f64Max ≤ (2 : ℚ) ^ (1017 : Int) * 180 := by norm_num [f64Max]
    have h4 : (2 : ℚ) ^ (1017 : Int) * 180 ≤ (2 : ℚ) ^ (1017 : Int) * d :=
      mul_le_mul_of_nonneg_left hd (by positivity)
    linarith
  have h2 := roundF64_abs_le_pow _ 1017 (by norm_num) h1
  have h5 : |roundF64 (a / d) * w| ≤ (2 : ℚ) ^ (1023 : Int) := by
    rw [abs_mul, abs_of_nonneg hw0]
    have h6 : |roundF64 (a / d)| * w ≤ (2 : ℚ) ^ (1017 : Int) * 64 :=
      mul_le_mul h2 hw hw0 (by positivity)
    have h7 : (2 : ℚ) ^ (1017 : Int) * 64 = (2 : ℚ) ^ (1023 : Int) := by norm_num
    linarith
  have h8 := roundF64_abs_le_pow _ 1023 (by norm_num) h5
  have h9 : (2 : ℚ) ^ (1017 : Int) ≤ f64Max := by norm_num [f64Max]
  have h10 : (2 : ℚ) ^ (1023 : Int) ≤ f64Max := by norm_num [f64Max]
  exact ⟨le_trans h2 h9, le_trans h8 h10⟩

/-- For a finite `float64` longitude the sum, the quotient and the product of
main.go:228 are finite. -/
theorem quotX_finite (lon : ℚ) (h : |lon| ≤ f64Max) :
    |fadd lon 180| ≤ f64Max ∧ |fdiv (fadd lon 180) 360| ≤ f64Max ∧ |quotX lon| ≤ f64Max := by
  obtain ⟨h1, h2⟩ := abs_le.mp h
  have ha : |fadd lon 180| ≤ f64Max := by
    unfold fadd
    have hu := roundF64_mono (show lon + 180 ≤ f64Max + 180 by linarith)
    have hl := roundF64_mono (show -f64Max ≤ lon + 180 by linarith)
    rw [roundF64_f64Max_add 180 (by norm_num) le_rfl] at hu
    rw [roundF64_neg_f64Max] at hl
    exact abs_le.mpr ⟨hl, hu⟩
  have hs := scaled_finite (fadd lon 180) 360 (width : ℚ) ha (by norm_num)
    (by norm_num [width]) (by norm_num [width])
  exact ⟨ha, hs.1, hs.2⟩

/-- For a finite `float64` latitude the difference, the quotient and the
product of main.go:229 are finite. -/
theorem quotY_finite (lat : ℚ) (h : |lat| ≤ f64Max) :
    |fsub 90 lat| ≤ f64Max ∧ |fdiv (fsub 90 lat) 180| ≤ f64Max ∧ |quotY lat| ≤ f64Max := by
  obtain ⟨h1, h2⟩ := abs_le.mp h
  have ha : |fsub 90 lat| ≤ f64Max := by
    unfold fsub
    have hu := roundF64_mono (show 90 - lat ≤ f64Max + 90 by linarith)
    have hl := roundF64_mono (show -f64Max ≤ 90 - lat by linarith)
    rw [roundF64_f64Max_add 90 (by norm_num) (by norm_num)] at hu
    rw [roundF64_neg_f64Max] at hl
    exact abs_le.mpr ⟨hl, hu⟩
  have hs := scaled_finite (fsub 90 lat) 180 (height : ℚ) ha le_rfl
    (by norm_num [height]) (by norm_num [height])
  exact ⟨ha, hs.1, hs.2⟩


theorem quotY_lat4764 : quotY lat4764 = 4 :=
  quotY_of_steps _ (5960646565637421 / 140737488355328)
    (4238682002231055 / 18014398509481984) 4
    (roundF64_eq_grid _ _ 5960646565637421 (-47) (by norm_num) (by norm_num) (by norm_num)
      (by norm_num [lat4764]))
    (roundF64_eq_of_near _ _ (-3) 8477364004462110 (by norm_num) (by norm_num) (by norm_num)
      (by norm_num) (by norm_num [abs_lt]))
    (roundF64_eq_of_near _ _ 1 (2 ^ 53) (by norm_num) (by norm_num) (by norm_num)
      (by norm_num) (by norm_num [abs_lt]))

theorem quotY_latBand : quotY latBand = 2 ^ 63 :=
  quotY_of_steps _ 97659233331403505664 542551296285575040 (2 ^ 63)
    (roundF64_eq_of_near _ _ 66 5960646565637421 (by norm_num) (by norm_num [latBand])
      (by norm_num [latBand]) (by norm_num) (by norm_num [latBand, abs_lt]))
    (roundF64_eq_of_near _ _ 58 8477364004462110 (by norm_num) (by norm_num) (by norm_num)
      (by norm_num) (by norm_num [abs_lt]))
    (roundF64_eq_of_near _ _ 62 (2 ^ 53) (by norm_num) (by norm_num) (by norm_num)
      (by norm_num) (by norm_num [abs_lt]))

/-! ## The grid -/

set_option maxRecDepth 100000 in
theorem buildGrid_eq_classified :
    buildGrid = asciiWorldMap.map (fun line => line.toList.map classify) := by
  decide

set_option maxRecDepth 100000 in
theorem buildGrid_rows_wide : ∀ row ∈ buildGrid, 64 ≤ row.length := by
  decide

set_option maxRecDepth 100000 in
theorem buildGrid_row_lengths : buildGrid.map List.length
    = [70, 70, 70, 70, 69, 70, 70, 70, 70, 70, 70, 70, 70, 70, 69, 70, 70] := by
  decide

theorem cellAt_buildGrid (r c : Nat) :
    cellAt buildGrid r c = (templateChar r c).map classify := by
  unfold cellAt templateChar
  rw [buildGrid_eq_classified, List.getElem?_map]
  cases asciiWorldMap[r]? with
  | none => rfl
  | some line => simp [List.getElem?_map]

theorem classify_ne_marker (ch : Char) : classify ch ≠ Cell.marker := by
  unfold classify
  split_ifs <;> simp

/-- The guarded write succeeds when both indices are inside the grid. -/
theorem placeMarker_inside (grid : List (List Cell)) (row : List Cell) (x y : Int)
    (hy0 : 0 ≤ y) (hy : y < (grid.length : Int)) (hrow : grid[y.toNat]? = some row)
    (hx0 : 0 ≤ x) (hx : x < (row.length : Int)) :
    placeMarker grid x y = some (grid.set y.toNat (row.set x.toNat Cell.marker)) := by
  unfold placeMarker
  rw [if_pos hy, if_neg (not_lt.mpr hy0), hrow]
  simp only
  rw [if_pos hx, if_neg (not_lt.mpr hx0)]

/-- The cell of a grid after one cell has been overwritten. -/
theorem cellAt_set (grid : List (List Cell)) (row : List Cell) (Y X : Nat) (v : Cell)
    (hrow : grid[Y]? = some row) (hX : X < row.length) (r c : Nat) :
    cellAt (grid.set Y (row.set X v)) r c
      = if r = Y ∧ c = X then some v else cellAt grid r c := by
  have hY : Y < grid.length := by
    rcases List.getElem?_eq_some.mp hrow with ⟨h, _⟩
    exact h
  unfold cellAt
  by_cases hr : r = Y
  · subst hr
    by_cases hc : c = X
    · subst hc
      simp [List.getElem?_set, hY, hX]
    · have hc2 : ¬ X = c := fun h => hc h.symm
      simp [List.getElem?_set, hY, hc, hc2, hrow]
  · have hr2 : ¬ Y = r := fun h => hr h.symm
    simp [List.getElem?_set, hr, hr2]

/-- The grid of `renderMap` is the classified template with the marker cell
overwritten. -/
theorem renderGrid_eq (ovf : ℚ → Int) (lat lon : ℚ) :
    ∃ row, buildGrid[(markerY ovf lat).toNat]? = some row ∧
      (markerX ovf lon).toNat < row.length ∧
      renderGrid ovf lat lon
        = some (buildGrid.set (markerY ovf lat).toNat
            (row.set (markerX ovf lon).toNat Cell.marker)) := by
  obtain ⟨hx0, hx⟩ := markerX_range ovf lon
  obtain ⟨hy0, hy⟩ := markerY_range ovf lat
  have hlen : (markerY ovf lat).toNat < buildGrid.length := by
    rw [buildGrid_length]; omega
  refine ⟨buildGrid[(markerY ovf lat).toNat], List.getElem?_eq_getElem hlen, ?_, ?_⟩
  · have := buildGrid_rows_wide _ (List.getElem_mem hlen)
    omega
  · have hw := buildGrid_rows_wide _ (List.getElem_mem hlen)
    exact placeMarker_inside buildGrid _ _ _ hy0 (by rw [buildGrid_length]; omega)
      (List.getElem?_eq_getElem hlen) hx0 (by omega)

/-! ## The event loop -/

theorem wrapInt_succ (z : Int) : wrapInt (wrapInt z + 1) = wrapInt (z + 1) := by
  unfold wrapInt
  omega

theorem wrapInt_of_small {z : Int} (h0 : 0 ≤ z) (h : z < 2 ^ 63) : wrapInt z = z := by
  unfold wrapInt
  omega

/-- While loading, `n` ticks only move the spinner counter. -/
theorem ticks_initialModel (n : Nat) :
    ticks initialModel n = { initialModel with spinner := wrapInt (n : Int) } := by
  induction n with
  | zero => simp [ticks, initialModel, wrapInt]
  | succ k ih =>
    show (Update (ticks initialModel k) Msg.TickMsg).1 = _
    rw [ih]
    simp [Update, initialModel, wrapInt_succ]

/-- No message turns `loading` back on, and without `loading` no message moves
the spinner. -/
theorem Update_not_loading (m : model) (msg : Msg) (h : m.loading = false) :
    (Update m msg).1.loading = false ∧ (Update m msg).1.spinner = m.spinner := by
  cases msg with
  | KeyMsg s =>
    by_cases hs : s = "q" ∨ s = "ctrl+c" <;> simp [Update, hs, h]
  | ipMsg p => simp [Update]
  | errMsg e => simp [Update]
  | TickMsg => simp [Update, h]
  | otherMsg => simp [Update, h]

theorem run_not_loading (msgs : List Msg) (m : model) (h : m.loading = false) :
    (run m msgs).loading = false ∧ (run m msgs).spinner = m.spinner := by
  induction msgs generalizing m with
  | nil => exact ⟨h, rfl⟩
  | cons msg rest ih =>
    obtain ⟨h1, h2⟩ := Update_not_loading m msg h
    obtain ⟨h3, h4⟩ := ih (Update m msg).1 h1
    simp only [run, List.foldl_cons] at h3 h4 ⊢
    exact ⟨h3, h4.trans h2⟩

theorem append_ne_empty (a b : String) (h : 0 < b.length) : a ++ b ≠ "" := by
  intro heq
  have := congrArg String.length heq
  simp only [String.length_append] at this
  have h0 : "".length = 0 := rfl
  omega


/-! ## The claims about the projection -/

/-- C1, counterexample: for the binary64 longitude -5.625000000000001 the sum
`lon + 180` rounds up to 174.375, so the code computes the quotient 31 and
column 31, while `floor((lon + 180) / 360 * 64)` is 30; for the binary64
longitude -61.87500000000001 the sum is a tie that rounds to 118.125, the code
computes column 21 and the exact floor is 20; for the binary64 latitude
47.64705882352941 the code computes the quotient 4 and row 4, while
`floor((90 - lat) / 180 * 17)` is 3; and for longitude `10^20` the quotient
exceeds every `int`, the conversion of x86-64 yields `-2^63` and the column is
0, while floor then clamp gives 63. -/
theorem C1_rounding_counterexample :
    markerX ovfAmd64 lonBelow5625 = 31 ∧ specColumn lonBelow5625 = 30 ∧
    markerX ovfAmd64 lonTie = 21 ∧ specColumn lonTie = 20 ∧
    markerY ovfAmd64 lat4764 = 4 ∧ specRow lat4764 = 3 ∧
    markerX ovfAmd64 (10 ^ 20) = 0 ∧ specColumn (10 ^ 20) = 63 := by
  refine ⟨?_, ?_, ?_, ?_, ?_, ?_, ?_, ?_⟩
  · exact markerX_of_bounds _ _ 31 (by norm_num) (by norm_num)
      (by rw [quotX_lonBelow5625]; norm_num) (by rw [quotX_lonBelow5625]; norm_num)
  · unfold specColumn
    have hf : ⌊(lonBelow5625 + 180) / 360 * (width : ℚ)⌋ = 30 :=
      Int.floor_eq_iff.mpr ⟨by norm_num [lonBelow5625, width], by norm_num [lonBelow5625, width]⟩
    rw [hf]
    decide
  · exact markerX_of_bounds _ _ 21 (by norm_num) (by norm_num)
      (by rw [quotX_lonTie]; norm_num) (by rw [quotX_lonTie]; norm_num)
  · unfold specColumn
    have hf : ⌊(lonTie + 180) / 360 * (width : ℚ)⌋ = 20 :=
      Int.floor_eq_iff.mpr ⟨by norm_num [lonTie, width], by norm_num [lonTie, width]⟩
    rw [hf]
    decide
  · exact markerY_of_bounds _ _ 4 (by norm_num) (by norm_num)
      (by rw [quotY_lat4764]; norm_num) (by rw [quotY_lat4764]; norm_num)
  · unfold specRow
    have hf : ⌊(90 - lat4764) / 180 * (height : ℚ)⌋ = 3 :=
      Int.floor_eq_iff.mpr ⟨by norm_num [lat4764, height], by norm_num [lat4764, height]⟩
    rw [hf]
    decide
  · have h := quotX_mono (show (180 * (2 ^ 58 - 1) : ℚ) ≤ 10 ^ 20 by norm_num)
    rw [quotX_large] at h
    exact markerX_amd64_of_large h
  · unfold specColumn
    simp only [width]
    have : (63 : Int) ≤ ⌊((10 : ℚ) ^ 20 + 180) / 360 * ((64 : ℕ) : ℚ)⌋ :=
      Int.le_floor.mpr (by norm_num)
    simp only [max_def, min_def]
    split_ifs <;> omega

/-- C1 (amended): for every latitude and longitude whose quotients, computed
as the code computes them in `float64` arithmetic (each of `+`, `-`, `/`, `*`
rounded to the nearest binary64), truncate to a value an `int` can hold,
whatever the sign of these quotients, the column computed by `renderMap` is
the floor of the `float64` quotient `(lon + 180) / 360 * 64` clamped to
`[0, 63]` and the row is the floor of the `float64` quotient
`(90 - lat) / 180 * 17` clamped to `[0, 16]`. -/
theorem C1_projection_is_floor_clamp (ovf : ℚ → Int) (lat lon : ℚ)
    (hx : FitsInt (quotX lon)) (hy : FitsInt (quotY lat)) :
    markerX ovf lon = floorColumn lon ∧ markerY ovf lat = floorRow lat :=
  ⟨markerX_eq_floor ovf lon hx, markerY_eq_floor ovf lat hy⟩

/-- C1, witness: longitude -540 and latitude 270 have the negative quotients
-64 and -17. -/
theorem C1_projection_is_floor_clamp_witness :
    FitsInt (quotX (-540)) ∧ FitsInt (quotY 270) ∧ quotX (-540) = -64 ∧ quotY 270 = -17 ∧
    markerX ovfAmd64 (-540) = floorColumn (-540) ∧
    markerY ovfAmd64 270 = floorRow 270 :=
  have hx : FitsInt (quotX (-540)) := fitsInt_quotX_of_range (by norm_num) (by norm_num)
  have hy : FitsInt (quotY 270) := fitsInt_quotY_of_range (by norm_num) (by norm_num)
  ⟨hx, hy, quotX_neg540, quotY_270, C1_projection_is_floor_clamp ovfAmd64 270 (-540) hx hy⟩

/-- C2: for every latitude and longitude, in `[-90, 90]` and `[-180, 180]` or
not, and whatever an overflowing conversion returns, the column computed by
`renderMap` lies in `[0, 63]` and the row in `[0, 16]`, and `renderMap`
returns a text (it does not panic); the boundary longitudes -180 and 180 give
columns 0 and 63, the boundary latitudes 90 and -90 give rows 0 and 16. -/
theorem C2_marker_in_range (sty : Styles) (ovf : ℚ → Int) (lat lon : ℚ) :
    (0 ≤ markerX ovf lon ∧ markerX ovf lon ≤ 63) ∧
    (0 ≤ markerY ovf lat ∧ markerY ovf lat ≤ 16) ∧
    (renderMap sty ovf lat lon).isSome = true ∧
    markerX ovf (-180) = 0 ∧ markerX ovf 180 = 63 ∧
    markerY ovf 90 = 0 ∧ markerY ovf (-90) = 16 := by
  refine ⟨markerX_range ovf lon, markerY_range ovf lat, ?_, ?_, ?_, ?_, ?_⟩
  · obtain ⟨row, _, _, hg⟩ := renderGrid_eq ovf lat lon
    simp [renderMap, hg]
  · exact markerX_of_bounds ovf _ 0 (by norm_num) (by norm_num)
      (by rw [quotX_neg180]; norm_num) (by rw [quotX_neg180]; norm_num)
  · rw [markerX_eq_floor ovf 180 (fitsInt_quotX_of_range (by norm_num) le_rfl)]
    unfold floorColumn
    have hq : quotX 180 = ((64 : Int) : ℚ) := by rw [quotX_180]; norm_num
    rw [hq, Int.floor_intCast]
    simp [width]
  · exact markerY_of_bounds ovf _ 0 (by norm_num) (by norm_num)
      (by rw [quotY_90]; norm_num) (by rw [quotY_90]; norm_num)
  · rw [markerY_eq_floor ovf (-90) (fitsInt_quotY_of_range le_rfl (by norm_num))]
    unfold floorRow
    have hq : quotY (-90) = ((17 : Int) : ℚ) := by rw [quotY_neg90]; norm_num
    rw [hq, Int.floor_intCast]
    simp [height]

/-- C9, counterexample: with the conversion of x86-64, longitude 0 is drawn in
column 32 and the larger longitude `10^20` in column 0; latitude 0 is drawn in
row 8 and the smaller latitudes `-10^20` and `-97659233331403505664` in row 0
(for the latter the `float64` quotient is exactly `2^63`). -/
theorem C9_overflow_counterexample :
    (0 : ℚ) ≤ 10 ^ 20 ∧ markerX ovfAmd64 0 = 32 ∧ markerX ovfAmd64 (10 ^ 20) = 0 ∧
    (-(10 : ℚ) ^ 20) ≤ 0 ∧ markerY ovfAmd64 0 = 8 ∧ markerY ovfAmd64 (-(10 : ℚ) ^ 20) = 0 ∧
    latBand ≤ 0 ∧ markerY ovfAmd64 latBand = 0 := by
  refine ⟨by norm_num, ?_, ?_, by norm_num, ?_, ?_, by norm_num [latBand], ?_⟩
  · exact markerX_of_bounds _ _ 32 (by norm_num) (by norm_num)
      (by rw [quotX_zero]; norm_num) (by rw [quotX_zero]; norm_num)
  · have h := quotX_mono (show (180 * (2 ^ 58 - 1) : ℚ) ≤ 10 ^ 20 by norm_num)
    rw [quotX_large] at h
    exact markerX_amd64_of_large h
  · exact markerY_of_bounds _ _ 8 (by norm_num) (by norm_num)
      (by rw [quotY_zero]; norm_num) (by rw [quotY_zero]; norm_num)
  · have h := quotY_anti (show -(10 : ℚ) ^ 20 ≤ 90 - 2745 * 2 ^ 55 by norm_num)
    rw [quotY_large] at h
    exact markerY_amd64_of_large (le_trans (by norm_num) h)
  · exact markerY_amd64_of_large (by rw [quotY_latBand])

/-- C9 (amended): among longitudes whose `float64` quotient
`(lon + 180) / 360 * 64` truncates to a value an `int` can hold, a larger
longitude never has a smaller column; among latitudes whose `float64` quotient
`(90 - lat) / 180 * 17` truncates to a value an `int` can hold, a larger
latitude never has a larger row. -/
theorem C9_projection_monotone (ovf : ℚ → Int) :
    (∀ lon1 lon2 : ℚ, lon1 ≤ lon2 → FitsInt (quotX lon1) → FitsInt (quotX lon2) →
      markerX ovf lon1 ≤ markerX ovf lon2) ∧
    (∀ lat1 lat2 : ℚ, lat1 ≤ lat2 → FitsInt (quotY lat1) → FitsInt (quotY lat2) →
      markerY ovf lat2 ≤ markerY ovf lat1) := by
  constructor
  · intro lon1 lon2 h h1 h2
    rw [markerX_eq_floor ovf lon1 h1, markerX_eq_floor ovf lon2 h2]
    exact floorColumn_mono h
  · intro lat1 lat2 h h1 h2
    rw [markerY_eq_floor ovf lat1 h1, markerY_eq_floor ovf lat2 h2]
    exact floorRow_anti h

/-- C9, witness: longitudes -200 and 10, latitudes -45 and 100. -/
theorem C9_projection_monotone_witness :
    markerX ovfAmd64 (-200) ≤ markerX ovfAmd64 10 ∧
    markerY ovfAmd64 100 ≤ markerY ovfAmd64 (-45) :=
  ⟨(C9_projection_monotone ovfAmd64).1 (-200) 10 (by norm_num)
      (fitsInt_quotX_of_range (by norm_num) (by norm_num))
      (fitsInt_quotX_of_range (by norm_num) (by norm_num)),
   (C9_projection_monotone ovfAmd64).2 (-45) 100 (by norm_num)
      (fitsInt_quotY_of_range (by norm_num) (by norm_num))
      (fitsInt_quotY_of_range (by norm_num) (by norm_num))⟩

/-! ## The claims about the grid -/

/-- C3: for every latitude and longitude `renderMap` builds a grid in which
the cell at row `r`, column `c` is the marker when `(r, c)` is the computed
(row, column), and otherwise is water when the character at position `c` of
row `r` of `asciiWorldMap` is a blank and land when it is not a blank (there
is a cell exactly where the template has a character); the marker is at that
one position and nowhere else; and for latitude 51.5, longitude -0.12 the
marker is the cell of row 3, column 31, the cell of row 0, column 0 (a blank in
the template) is water and the cell of row 0, column 11 (a dot in the
template) is land. -/
theorem C3_grid_cells (ovf : ℚ → Int) (lat lon : ℚ) :
    (∃ grid, renderGrid ovf lat lon = some grid ∧
      (∀ r c : Nat, cellAt grid r c =
        if (r : Int) = markerY ovf lat ∧ (c : Int) = markerX ovf lon then some Cell.marker
        else (templateChar r c).map (fun ch => if ch = ' ' then Cell.water else Cell.land)) ∧
      (∀ r c : Nat, cellAt grid r c = some Cell.marker ↔
        ((r : Int) = markerY ovf lat ∧ (c : Int) = markerX ovf lon))) ∧
    (∃ london, renderGrid ovf (103 / 2) lonMinus012 = some london ∧
      cellAt london 3 31 = some Cell.marker ∧
      templateChar 0 0 = some ' ' ∧ cellAt london 0 0 = some Cell.water ∧
      templateChar 0 11 = some '.' ∧ cellAt london 0 11 = some Cell.land) := by
  have key : ∀ la lo : ℚ, ∃ grid, renderGrid ovf la lo = some grid ∧
      ∀ r c : Nat, cellAt grid r c =
        if (r : Int) = markerY ovf la ∧ (c : Int) = markerX ovf lo then some Cell.marker
        else (templateChar r c).map (fun ch => if ch = ' ' then Cell.water else Cell.land) := by
    intro la lo
    obtain ⟨row, hrow, hX, hg⟩ := renderGrid_eq ovf la lo
    obtain ⟨hx0, _⟩ := markerX_range ovf lo
    obtain ⟨hy0, _⟩ := markerY_range ovf la
    refine ⟨_, hg, ?_⟩
    intro r c
    rw [cellAt_set buildGrid row _ _ Cell.marker hrow hX r c, cellAt_buildGrid]
    have e1 : (r = (markerY ovf la).toNat) ↔ ((r : Int) = markerY ovf la) := by omega
    have e2 : (c = (markerX ovf lo).toNat) ↔ ((c : Int) = markerX ovf lo) := by omega
    simp only [e1, e2]
    rfl
  constructor
  · obtain ⟨grid, hg, hcell⟩ := key lat lon
    refine ⟨grid, hg, hcell, ?_⟩
    intro r c
    rw [hcell r c]
    by_cases h : (r : Int) = markerY ovf lat ∧ (c : Int) = markerX ovf lon
    · simp [h]
    · simp only [h, if_false, iff_false]
      intro hm
      obtain ⟨ch, _, hch⟩ := Option.map_eq_some'.mp hm
      exact classify_ne_marker ch hch
  · obtain ⟨grid, hg, hcell⟩ := key (103 / 2) lonMinus012
    have hx := markerX_lonMinus012 ovf
    have hy := markerY_515 ovf
    have t0 : templateChar 0 0 = some ' ' := by decide
    have t11 : templateChar 0 11 = some '.' := by decide
    refine ⟨grid, hg, ?_, t0, ?_, t11, ?_⟩
    · rw [hcell 3 31, hx, hy]
      simp
    · rw [hcell 0 0, hx, hy, t0]
      simp
    · rw [hcell 0 11, hx, hy, t11]
      simp

/-- C4, the code at any input: `asciiWorldMap` has 17 rows, but they hold 70
characters each (rows 4 and 14 hold 69), not 64; no row is shorter than
`width`, so the padding loop adds nothing, and the grid of `renderMap` has
rows of 70 and 69 cells while the projection uses `width` = 64. -/
theorem C4_template_rows_are_not_64 :
    asciiWorldMap.length = 17 ∧
    asciiWorldMap.map String.length
      = [70, 70, 70, 70, 69, 70, 70, 70, 70, 70, 70, 70, 70, 70, 69, 70, 70] ∧
    width = 64 ∧
    ∀ (ovf : ℚ → Int) (lat lon : ℚ),
      (renderGrid ovf lat lon).map (fun grid => grid.map List.length)
        = some [70, 70, 70, 70, 69, 70, 70, 70, 70, 70, 70, 70, 70, 70, 69, 70, 70] := by
  refine ⟨by decide, by decide, rfl, ?_⟩
  intro ovf lat lon
  obtain ⟨row, hrow, hX, hg⟩ := renderGrid_eq ovf lat lon
  have hlen : ∀ (g : List (List Cell)) (Y X : Nat) (rw0 : List Cell), g[Y]? = some rw0 →
      (g.set Y (rw0.set X Cell.marker)).map List.length = g.map List.length := by
    intro g Y X rw0 h
    apply List.ext_getElem?
    intro i
    by_cases hi : Y = i
    · subst hi
      simp [List.getElem?_set, h]
      obtain ⟨hY, _⟩ := List.getElem?_eq_some.mp h
      exact hY
    · simp [List.getElem?_set, hi]
  rw [hg, Option.map_some', hlen _ _ _ _ hrow, buildGrid_row_lengths]

/-! ## The claims about the event loop -/

/-- C5: in every state reached from `initialModel` by `n` ticks, a
lookup-failure message carrying the error `e` gives a state whose error is
`e`, with `loading` false, no record and the spinner counter unchanged, and the
command `nil`; `View` of that state is the text "Error: ", the text of `e` and
the quit hint, so it contains "Error:"; a transport error and a decode error
give the same message. -/
theorem C5_lookup_failure (sty : Styles) (ovf : ℚ → Int) (n : Nat) (e : GoError) :
    Update (ticks initialModel n) (Msg.errMsg e)
      = ({ ticks initialModel n with err := some e, loading := false }, Cmd.nil) ∧
    (Update (ticks initialModel n) (Msg.errMsg e)).1.err = some e ∧
    (Update (ticks initialModel n) (Msg.errMsg e)).1.loading = false ∧
    (Update (ticks initialModel n) (Msg.errMsg e)).1.ipInfo = none ∧
    (Update (ticks initialModel n) (Msg.errMsg e)).1.spinner = (ticks initialModel n).spinner ∧
    (Update (ticks initialModel n) (Msg.errMsg e)).2 = Cmd.nil ∧
    View sty ovf (Update (ticks initialModel n) (Msg.errMsg e)).1
      = some ("\nError: " ++ e.text ++ "\n\nPress q to quit.") ∧
    (∃ before after, View sty ovf (Update (ticks initialModel n) (Msg.errMsg e)).1
      = some (before ++ "Error:" ++ after ++ "\n\nPress q to quit.")) ∧
    getIPInfo (Lookup.transportError e) = Msg.errMsg e ∧
    getIPInfo (Lookup.decodeError e) = Msg.errMsg e := by
  have hv : View sty ovf (Update (ticks initialModel n) (Msg.errMsg e)).1
      = some ("\nError: " ++ e.text ++ "\n\nPress q to quit.") := by
    simp [View, Update]
  refine ⟨rfl, rfl, rfl, ?_, rfl, rfl, hv, ⟨"\n", " " ++ e.text, ?_⟩, rfl, rfl⟩
  · rw [ticks_initialModel]
    rfl
  · rw [hv]
    have h : "\nError: " = "\n" ++ "Error:" ++ " " := by decide
    rw [h]
    simp only [String.append_assoc]

/-- C6: for every record `r`, whatever its status, and every state `m`
without an error, a lookup-success message carrying `r` gives the state `m`
with the record `r` and `loading` false, the error still absent, and the
command `nil`; `renderMap` returns a text for the coordinates of `r`, and
`View` of the new state is the info panel of `r` joined with that text,
followed by the quit hint. -/
theorem C6_lookup_success (sty : Styles) (ovf : ℚ → Int) (m : model) (r : IPInfo)
    (hload : m.loading = true) (herr : m.err = none) :
    Update m (Msg.ipMsg (some r))
      = ({ m with ipInfo := some r, loading := false }, Cmd.nil) ∧
    (Update m (Msg.ipMsg (some r))).1.ipInfo = some r ∧
    (Update m (Msg.ipMsg (some r))).1.loading = false ∧
    (Update m (Msg.ipMsg (some r))).1.err = none ∧
    (Update m (Msg.ipMsg (some r))).1.spinner = m.spinner ∧
    ∃ mapView, renderMap sty ovf r.Lat r.Lon = some mapView ∧
      View sty ovf (Update m (Msg.ipMsg (some r))).1
        = some (sty.joinHorizontalTop (sty.infoStyle (infoContent sty r)) mapView
            ++ "\n\nPress q to quit.") := by
  have _ := hload
  refine ⟨rfl, rfl, rfl, herr, rfl, ?_⟩
  obtain ⟨row, _, _, hg⟩ := renderGrid_eq ovf r.Lat r.Lon
  refine ⟨_, by rw [renderMap, hg]; rfl, ?_⟩
  simp [View, Update, herr, renderMap, hg]

/-- C6, witness: the record `failRecord`, whose status is "fail", delivered to
`initialModel`. -/
theorem C6_lookup_success_witness :
    initialModel.loading = true ∧ initialModel.err = none ∧ failRecord.Status = "fail" ∧
    (Update initialModel (Msg.ipMsg (some failRecord))).1.ipInfo = some failRecord ∧
    (Update initialModel (Msg.ipMsg (some failRecord))).1.loading = false :=
  have h := C6_lookup_success plainStyles ovfAmd64 initialModel failRecord rfl rfl
  ⟨rfl, rfl, rfl, h.2.1, h.2.2.1⟩

/-- C7: in every state with `loading` false a tick returns the same state and
the command `nil`; after a lookup-success or lookup-failure message, whatever
messages follow, `loading` stays false and the spinner counter keeps the value
it had at that message; and a message changes the spinner counter only if it
is a tick received while `loading` is true. -/
theorem C7_ticks_after_outcome :
    (∀ m : model, m.loading = false → Update m Msg.TickMsg = (m, Cmd.nil)) ∧
    (∀ (m : model) (outcome : Msg) (later : List Msg), outcome.isOutcome = true →
      (run (Update m outcome).1 later).spinner = (Update m outcome).1.spinner ∧
      (Update m outcome).1.spinner = m.spinner ∧
      (run (Update m outcome).1 later).loading = false) ∧
    (∀ (m : model) (msg : Msg), (Update m msg).1.spinner ≠ m.spinner →
      m.loading = true ∧ msg = Msg.TickMsg) := by
  refine ⟨?_, ?_, ?_⟩
  · intro m h
    simp [Update, h]
  · intro m outcome later ho
    have hl : (Update m outcome).1.loading = false ∧ (Update m outcome).1.spinner = m.spinner := by
      cases outcome with
      | ipMsg p => exact ⟨rfl, rfl⟩
      | errMsg e => exact ⟨rfl, rfl⟩
      | KeyMsg s => simp [Msg.isOutcome] at ho
      | TickMsg => simp [Msg.isOutcome] at ho
      | otherMsg => simp [Msg.isOutcome] at ho
    obtain ⟨h1, h2⟩ := run_not_loading later _ hl.1
    exact ⟨h2, hl.2, h1⟩
  · intro m msg hne
    cases msg with
    | KeyMsg s =>
      exfalso; apply hne
      by_cases hs : s = "q" ∨ s = "ctrl+c" <;> simp [Update, hs]
    | ipMsg p => exact absurd rfl hne
    | errMsg e => exact absurd rfl hne
    | otherMsg => exact absurd rfl hne
    | TickMsg =>
      refine ⟨?_, rfl⟩
      by_contra hl
      apply hne
      simp [Update, hl]

/-- C7, witness: three ticks, a lookup failure, then a tick, a key and a tick:
the spinner counter stays 3. -/
theorem C7_ticks_after_outcome_witness :
    (run (Update (ticks initialModel 3) (Msg.errMsg ⟨"timeout"⟩)).1
      [Msg.TickMsg, Msg.KeyMsg "x", Msg.TickMsg]).spinner = 3 ∧
    Update (Update (ticks initialModel 3) (Msg.errMsg ⟨"timeout"⟩)).1 Msg.TickMsg
      = ((Update (ticks initialModel 3) (Msg.errMsg ⟨"timeout"⟩)).1, Cmd.nil) :=
  ⟨(C7_ticks_after_outcome.2.1 (ticks initialModel 3) (Msg.errMsg ⟨"timeout"⟩)
      [Msg.TickMsg, Msg.KeyMsg "x", Msg.TickMsg] rfl).1.trans (by decide),
   C7_ticks_after_outcome.1 _ rfl⟩

theorem spinnerIndex_ticks_of_small (n : Nat) (h : (n : Int) < 2 ^ 63) :
    spinnerIndex (ticks initialModel n) = ((n % 8 : Nat) : Int) := by
  rw [ticks_initialModel]
  unfold spinnerIndex goMod
  simp only [wrapInt_of_small (Int.ofNat_nonneg n) h]
  have hl : ((spinnerChars.length : Nat) : Int) = ((8 : Nat) : Int) := rfl
  rw [hl, Int.ofNat_tmod]

/-- C8: for every number `n` of ticks delivered to the initial state that the
64-bit counter `spinner` counts without wrapping (`n < 2^63`), the state is
still loading, the index `spinner % 8` used by `View` equals `n mod 8` and
lies in `[0, 7]`, the lookup in `spinnerChars` returns the glyph at `n mod 8`
and does not panic, and `View` returns the loading text with that glyph. -/
theorem C8_spinner_index (sty : Styles) (ovf : ℚ → Int) (n : Nat) (h : (n : Int) < 2 ^ 63) :
    (ticks initialModel n).loading = true ∧
    spinnerIndex (ticks initialModel n) = ((n % 8 : Nat) : Int) ∧
    0 ≤ spinnerIndex (ticks initialModel n) ∧ spinnerIndex (ticks initialModel n) ≤ 7 ∧
    ∃ spin, spinnerChars[n % 8]? = some spin ∧
      sliceAt spinnerChars (spinnerIndex (ticks initialModel n)) = some spin ∧
      View sty ovf (ticks initialModel n)
        = some ("\n " ++ spin ++ " Scanning network for IP details...\n\nPress q to quit.") := by
  have hi := spinnerIndex_ticks_of_small n h
  have hlt : n % 8 < spinnerChars.length := Nat.mod_lt n (by decide)
  have hs : sliceAt spinnerChars (spinnerIndex (ticks initialModel n))
      = some (spinnerChars[n % 8]) := by
    rw [hi]
    unfold sliceAt
    rw [if_pos (Int.ofNat_nonneg _), Int.toNat_ofNat]
    exact List.getElem?_eq_getElem hlt
  have hload : (ticks initialModel n).loading = true := by
    rw [ticks_initialModel]; rfl
  have herr : (ticks initialModel n).err = none := by
    rw [ticks_initialModel]; rfl
  refine ⟨hload, hi, ?_, ?_, spinnerChars[n % 8], List.getElem?_eq_getElem hlt, hs, ?_⟩
  · rw [hi]; exact Int.ofNat_nonneg _
  · rw [hi]
    have : n % 8 < 8 := Nat.mod_lt n (by decide)
    omega
  · unfold View
    rw [herr]
    simp only [hload, if_true, hs, Option.map_some']

/-- C8, witness: eleven ticks select the glyph of index 3. -/
theorem C8_spinner_index_witness :
    ((11 : Nat) : Int) < 2 ^ 63 ∧
    spinnerIndex (ticks initialModel 11) = ((11 % 8 : Nat) : Int) :=
  ⟨by decide, (C8_spinner_index plainStyles ovfAmd64 11 (by decide)).2.1⟩

theorem Update_displayable (m : model) (msg : Msg) (hm : Displayable m)
    (hmsg : msg ≠ Msg.ipMsg none) : Displayable (Update m msg).1 := by
  unfold Displayable at hm ⊢
  cases msg with
  | KeyMsg s =>
    by_cases hs : s = "q" ∨ s = "ctrl+c" <;> simpa [Update, hs] using hm
  | ipMsg p =>
    cases p with
    | none => exact absurd rfl hmsg
    | some r => right; right; simp [Update]
  | errMsg e => left; simp [Update]
  | TickMsg =>
    by_cases hl : m.loading = true
    · right; left; simp [Update, hl]
    · simpa [Update, hl] using hm
  | otherMsg => simpa [Update] using hm

theorem run_displayable (msgs : List Msg) (m : model) (hm : Displayable m)
    (h : ∀ msg ∈ msgs, msg ≠ Msg.ipMsg none) : Displayable (run m msgs) := by
  induction msgs generalizing m with
  | nil => exact hm
  | cons msg rest ih =>
    have h1 := Update_displayable m msg hm (h msg (List.mem_cons_self _ _))
    exact ih (Update m msg).1 h1 (fun x hx => h x (List.mem_cons_of_mem _ hx))

theorem View_ne_empty (sty : Styles) (ovf : ℚ → Int) (m : model) (hm : Displayable m) :
    View sty ovf m ≠ some "" := by
  have hq : 0 < "\n\nPress q to quit.".length := by decide
  have hs : 0 < " Scanning network for IP details...\n\nPress q to quit.".length := by decide
  unfold View
  cases herr : m.err with
  | some e =>
    simp only [ne_eq, Option.some.injEq]
    exact append_ne_empty _ _ hq
  | none =>
    simp only
    by_cases hl : m.loading = true
    · rw [if_pos hl]
      cases sliceAt spinnerChars (spinnerIndex m) with
      | none => simp
      | some spin =>
        simp only [Option.map_some', ne_eq, Option.some.injEq]
        exact append_ne_empty _ _ hs
    · rw [if_neg hl]
      cases hip : m.ipInfo with
      | none =>
        exfalso
        rcases hm with h | h | h
        · exact h herr
        · exact hl h
        · exact h hip
      | some info =>
        simp only
        cases renderMap sty ovf info.Lat info.Lon with
        | none => simp
        | some mapView =>
          simp only [Option.map_some', ne_eq, Option.some.injEq]
          exact append_ne_empty _ _ hq

/-- C10: in every state reached from `initialModel` by a finite sequence of
messages (ticks, keys, lookup failures, messages of other types, and lookup
successes that carry a record, as those of `getIPInfo` do), the error is
present or `loading` is true or the record is present; so the last branch of
`View` is not taken and `View` does not return the empty string. -/
theorem C10_view_never_empty (sty : Styles) (ovf : ℚ → Int) (msgs : List Msg)
    (h : ∀ msg ∈ msgs, msg ≠ Msg.ipMsg none) :
    ((run initialModel msgs).err ≠ none ∨ (run initialModel msgs).loading = true ∨
      (run initialModel msgs).ipInfo ≠ none) ∧
    View sty ovf (run initialModel msgs) ≠ some "" ∧
    (∀ outcome : Lookup, getIPInfo outcome ≠ Msg.ipMsg none) := by
  have hd : Displayable (run initialModel msgs) :=
    run_displayable msgs initialModel (Or.inr (Or.inl rfl)) h
  refine ⟨hd, View_ne_empty sty ovf _ hd, ?_⟩
  intro outcome
  cases outcome <;> simp [getIPInfo]

/-- C10, witness: a tick, a key, the success message of `getIPInfo` for
`failRecord`, a tick. -/
theorem C10_view_never_empty_witness :
    View plainStyles ovfAmd64
      (run initialModel
        [Msg.TickMsg, Msg.KeyMsg "x", getIPInfo (Lookup.decoded failRecord), Msg.TickMsg])
      ≠ some "" :=
  (C10_view_never_empty plainStyles ovfAmd64
    [Msg.TickMsg, Msg.KeyMsg "x", getIPInfo (Lookup.decoded failRecord), Msg.TickMsg]
    (by simp [getIPInfo])).2.1

end IPVis
